import Mathlib

/-!
# mdm-xv: token lifecycle of the command line tool

A shallow embedding of `build/1.7/mdm-xv.go`: the token cache file, the
operating-system keyring, the `token` command and the `reset` command.

The program is sequential Go code that talks to the file system, the keyring,
the terminal and one HTTP endpoint.  The embedding passes the state of those
collaborators explicitly (`State`), and takes the answers of the world that the
program cannot compute itself (the clock, the standard-library codecs, what the
operator types, what the server answers, whether a write fails) from an
environment record (`Env`).  Every function records the calls it makes to its
collaborators in `State.trace`, in program order.

Reads and deletions fail exactly when the thing read or deleted is absent;
writes fail when the environment says so.
-/

namespace MdmXv

/-! ## Data model -/

/-- The Go struct `TokenResponse` (source lines 24-27). -/
structure TokenResponse where
  Token : String
  Expires : String
deriving DecidableEq, Repr

/-- The constant `serviceName`. -/
def serviceName : String := "mdm_xv_token_tool"

/-- The constant `tokenFileName`. -/
def tokenFileName : String := "mdm_token.json"

/-- The three keyring keys the program uses under `serviceName`. -/
inductive Key where
  | username
  | password
  | url
deriving DecidableEq, Repr

/-- The constants `usernameKey`, `passwordKey` and `urlKey`. -/
def Key.name : Key → String
  | .username => "username"
  | .password => "password"
  | .url => "url"

/-- The path of the cache file below the home directory `dir`. -/
def getTokenFilePath (dir : String) : String :=
  dir ++ "/Library/Application Support/mdm-xv/" ++ tokenFileName

/-- The entries of the keyring under `serviceName`; `none` is an absent key. -/
structure Keyring where
  username : Option String
  password : Option String
  url : Option String
deriving DecidableEq, Repr

/-- The value stored under a key. -/
def Keyring.get (kr : Keyring) : Key → Option String
  | .username => kr.username
  | .password => kr.password
  | .url => kr.url

/-- The keyring with the entry of key `k` replaced. -/
def Keyring.put (kr : Keyring) (k : Key) (v : Option String) : Keyring :=
  match k with
  | .username => { kr with username := v }
  | .password => { kr with password := v }
  | .url => { kr with url := v }

/-- The keyring without any entry. -/
def Keyring.empty : Keyring := ⟨none, none, none⟩

/-- The values of the Go type `error` that the modelled code can produce. -/
inductive Err where
  /-- The cache file does not exist (`os.ReadFile`, `os.Remove`). -/
  | notExist
  /-- The call `json.Unmarshal` rejected the cache file. -/
  | unmarshal
  /-- The error made by `fmt.Errorf("token expired")`. -/
  | tokenExpired
  /-- The keyring has no entry for the key (`keyring.ErrNotFound`). -/
  | keyringNotFound
  /-- The call `keyring.Set` failed for the key. -/
  | keyringSet (k : Key)
  /-- The call `os.Create` failed. -/
  | create
  /-- Writing the encoded record to the created file failed. -/
  | write
  /-- The error made by `errors.New("URL is empty")`. -/
  | urlEmpty
  /-- The call `http.NewRequest` rejected the target. -/
  | newRequest
  /-- The call `client.Do` failed: no response arrived. -/
  | transport
  /-- The error made by `fmt.Errorf("auth failed: %s", resp.Status)`. -/
  | authFailed (status : String)
  /-- The response body is not a JSON token record. -/
  | decode
deriving DecidableEq, Repr

deriving instance DecidableEq for Except

/-- A call of the program to one of its collaborators. -/
inductive Event where
  | readFile
  | mkdirAll
  | createFile
  | writeFile (data : String)
  | removeFile
  | keyringGet (k : Key)
  | keyringSet (k : Key) (v : String)
  | keyringDelete (k : Key)
  | prompt (k : Key)
  | authCall (username password url : String)
  | httpPost (target username password : String)
deriving DecidableEq, Repr

/-- What the program prints on standard output. -/
inductive Output where
  | promptText (k : Key)
  | newline
  | validToken (token : String)
  | newToken (token : String)
  | expires (instant : Int)
deriving DecidableEq, Repr

/-- The state the program works on: the cache file (`none` when it does not
exist), the keyring, and the record of what the program did so far. -/
structure State where
  cacheFile : Option String
  keyring : Keyring
  trace : List Event
  stdout : List Output
deriving DecidableEq, Repr

/-- The state with one more collaborator call recorded. -/
def State.log (s : State) (e : Event) : State :=
  { s with trace := s.trace ++ [e] }

/-- The state with one more item printed. -/
def State.print (s : State) (o : Output) : State :=
  { s with stdout := s.stdout ++ [o] }

/-- A state with the given file and keyring in which nothing has run yet. -/
def State.init (file : Option String) (kr : Keyring) : State :=
  ⟨file, kr, [], []⟩

/-- The answers of the world outside the program during one run. Instants are
nanoseconds since the Unix epoch. -/
structure Env where
  /-- The value of `time.Now().UTC()`. -/
  now : Int
  /-- The function `time.Parse(time.RFC3339, ·)`; `none` is a parse error. -/
  parseRFC3339 : String → Option Int
  /-- The function `json.Unmarshal` into a `TokenResponse`. -/
  jsonUnmarshal : String → Option TokenResponse
  /-- The bytes `json.NewEncoder(f).Encode` produces for a record. -/
  jsonEncode : TokenResponse → String
  /-- The function `json.NewDecoder(body).Decode` into a `TokenResponse`. -/
  jsonDecode : String → Option TokenResponse
  /-- Whether `os.Create` of the cache file fails. -/
  createFails : Bool
  /-- When `some n`, the write to the created file fails after `n` characters. -/
  writeFailsAfter : Option Nat
  /-- Whether `keyring.Set` fails for a key. -/
  keyringSetFails : Key → Bool
  /-- What the operator types when asked for a field. -/
  typed : Key → String
  /-- Whether `http.NewRequest` rejects a target. -/
  newRequestFails : String → Bool
  /-- The answer to the POST of target, user name and password: status code,
  status line and body, or `none` when the transport fails. -/
  httpDo : String → String → String → Option (Nat × String × String)

/-- The instant of the zero value of the Go type `time.Time`, which
`time.Parse` returns together with an error. -/
def zeroTime : Int := -62135596800000000000

/-! ## White space trimming -/

/-- The characters `unicode.IsSpace` accepts. -/
def isSpace (c : Char) : Bool :=
  let n := c.toNat
  (9 ≤ n && n ≤ 13) || n == 32 || n == 133 || n == 160 || n == 5760 ||
  (8192 ≤ n && n ≤ 8202) || n == 8232 || n == 8233 || n == 8239 || n == 8287 ||
  n == 12288

/-- The function `strings.TrimSpace`. -/
def trimSpace (s : String) : String :=
  String.mk (((s.data.dropWhile isSpace).reverse.dropWhile isSpace).reverse)

/-! ## The token cache -/

/-- The function `readCachedToken` (source lines 42-57). -/
def readCachedToken (env : Env) (s : State) : Except Err TokenResponse × State :=
  let s := s.log .readFile
  match s.cacheFile with
  | none => (.error .notExist, s)
  | some data =>
    match env.jsonUnmarshal data with
    | none => (.error .unmarshal, s)
    | some token =>
      match env.parseRFC3339 token.Expires with
      | none => (.error .tokenExpired, s)
      | some expTime =>
        if env.now > expTime then (.error .tokenExpired, s) else (.ok token, s)

/-- The function `writeCachedToken` (source lines 59-68). -/
def writeCachedToken (env : Env) (token : TokenResponse) (s : State) :
    Option Err × State :=
  let s := s.log .mkdirAll
  let s := s.log .createFile
  if env.createFails then (some .create, s)
  else
    let s := { s with cacheFile := some "" }
    let data := env.jsonEncode token
    let s := s.log (.writeFile data)
    match env.writeFailsAfter with
    | some n => (some .write, { s with cacheFile := some (String.mk (data.data.take n)) })
    | none => (none, { s with cacheFile := some data })

/-! ## The keyring -/

/-- The call `keyring.Get(serviceName, k)`. -/
def keyringGet (k : Key) (s : State) : Except Err String × State :=
  let s := s.log (.keyringGet k)
  match s.keyring.get k with
  | none => (.error .keyringNotFound, s)
  | some v => (.ok v, s)

/-- The call `keyring.Set(serviceName, k, v)`. -/
def keyringSet (env : Env) (k : Key) (v : String) (s : State) : Option Err × State :=
  let s := s.log (.keyringSet k v)
  if env.keyringSetFails k then (some (.keyringSet k), s)
  else (none, { s with keyring := s.keyring.put k (some v) })

/-- The call `keyring.Delete(serviceName, k)`. -/
def keyringDelete (k : Key) (s : State) : Option Err × State :=
  let s := s.log (.keyringDelete k)
  match s.keyring.get k with
  | none => (some .keyringNotFound, s)
  | some _ => (none, { s with keyring := s.keyring.put k none })

/-- The function `getCredentialsFromKeyring` (source lines 70-84). -/
def getCredentialsFromKeyring (s : State) :
    Except Err (String × String × String) × State :=
  match keyringGet .username s with
  | (.error err, s) => (.error err, s)
  | (.ok u, s) =>
    match keyringGet .password s with
    | (.error err, s) => (.error err, s)
    | (.ok p, s) =>
      match keyringGet .url s with
      | (.error err, s) => (.error err, s)
      | (.ok url, s) => (.ok (u, p, url), s)

/-- The function `saveCredentialsToKeyring` (source lines 86-94). -/
def saveCredentialsToKeyring (env : Env) (username password url : String) (s : State) :
    Option Err × State :=
  match keyringSet env .username username s with
  | (some err, s) => (some err, s)
  | (none, s) =>
    match keyringSet env .password password s with
    | (some err, s) => (some err, s)
    | (none, s) => keyringSet env .url url s

/-- The function `promptCredentials` (source lines 96-112). -/
def promptCredentials (env : Env) (s : State) : (String × String × String) × State :=
  let s := (s.print (.promptText .username)).log (.prompt .username)
  let u := trimSpace (env.typed .username)
  let s := (s.print (.promptText .password)).log (.prompt .password)
  let p := trimSpace (env.typed .password)
  let s := s.print .newline
  let s := (s.print (.promptText .url)).log (.prompt .url)
  let url := trimSpace (env.typed .url)
  ((u, p, url), s)

/-! ## The authentication call -/

/-- The function `getBearerToken` (source lines 114-137). -/
def getBearerToken (env : Env) (username password url : String) (s : State) :
    Except Err TokenResponse × State :=
  let s := s.log (.authCall username password url)
  if url = "" then (.error .urlEmpty, s)
  else
    let target := url ++ "/api/v1/auth/token"
    if env.newRequestFails target then (.error .newRequest, s)
    else
      let s := s.log (.httpPost target username password)
      match env.httpDo target username password with
      | none => (.error .transport, s)
      | some (statusCode, status, body) =>
        if statusCode ≠ 200 then (.error (.authFailed status), s)
        else
          match env.jsonDecode body with
          | none => (.error .decode, s)
          | some token => (.ok token, s)

/-! ## The commands -/

/-- The function `resetCredentials` (source lines 170-175). -/
def resetCredentials (s : State) : Option Err × State :=
  let s := (keyringDelete .username s).2
  let s := (keyringDelete .password s).2
  let s := (keyringDelete .url s).2
  let s := s.log .removeFile
  match s.cacheFile with
  | none => (some .notExist, s)
  | some _ => (none, { s with cacheFile := none })

/-- The credential resolution of the `token` command (source lines 242-246):
the stored credentials, or the prompted ones when the keyring read fails or
the stored url is empty. The result of `saveCredentialsToKeyring` is dropped. -/
def resolveCredentials (env : Env) (s : State) : (String × String × String) × State :=
  match getCredentialsFromKeyring s with
  | (.ok (u, p, url), s) =>
    if url = "" then
      let (c, s) := promptCredentials env s
      (c, (saveCredentialsToKeyring env c.1 c.2.1 c.2.2 s).2)
    else ((u, p, url), s)
  | (.error _, s) =>
    let (c, s) := promptCredentials env s
    (c, (saveCredentialsToKeyring env c.1 c.2.1 c.2.2 s).2)

/-- The action of the `token` command (source lines 235-256). The result is
the error the action returns, `none` for `nil`. -/
def tokenAction (env : Env) (s : State) : Option Err × State :=
  match readCachedToken env s with
  | (.ok cached, s) =>
    let expTime := (env.parseRFC3339 cached.Expires).getD zeroTime
    let s := s.print (.validToken cached.Token)
    let s := s.print (.expires expTime)
    (none, s)
  | (.error _, s) =>
    let ((u, p, url), s) := resolveCredentials env s
    match getBearerToken env u p url s with
    | (.error err, s) => (some err, s)
    | (.ok token, s) =>
      let s := (writeCachedToken env token s).2
      let expTime := (env.parseRFC3339 token.Expires).getD zeroTime
      let s := s.print (.newToken token.Token)
      let s := s.print (.expires expTime)
      (none, s)

/-- The action of the `reset` command (source lines 325-328). -/
def resetAction (s : State) : Option Err × State :=
  resetCredentials s

/-- The process exit code `main` ends with for the result of an action
(source lines 332-335). -/
def exitCode : Option Err → Nat
  | none => 0
  | some _ => 1

/-! ## A reference environment

Executable stand-ins for the standard-library functions of `Env`, used to run
the program on concrete inputs: the RFC 3339 fast path of `time.Parse`, and
the `encoding/json` codec restricted to objects whose members are strings. -/

namespace Ref

/-- The value of a decimal digit. -/
def digitVal (c : Char) : Option Nat :=
  if 48 ≤ c.toNat ∧ c.toNat ≤ 57 then some (c.toNat - 48) else none

/-- The closure `parseUint` of the RFC 3339 parser: an unsigned decimal number
within a range. -/
def parseUint (cs : List Char) (lo hi : Nat) : Option Nat :=
  match cs.foldl (fun acc c => acc.bind fun x => (digitVal c).map fun d => x * 10 + d) (some 0) with
  | some x => if lo ≤ x ∧ x ≤ hi then some x else none
  | none => none

/-- Whether a year is a leap year. -/
def isLeap (year : Nat) : Bool :=
  year % 4 == 0 && (year % 100 != 0 || year % 400 == 0)

/-- The number of days of a month. -/
def daysIn (month year : Nat) : Nat :=
  if month = 2 then (if isLeap year then 29 else 28)
  else if month = 4 ∨ month = 6 ∨ month = 9 ∨ month = 11 then 30
  else 31

/-- Days from 1970-01-01 to a date of the proleptic Gregorian calendar. -/
def daysFromCivil (year month day : Nat) : Int :=
  let y : Int := if month ≤ 2 then (year : Int) - 1 else year
  let era : Int := y / 400
  let yoe : Int := y - era * 400
  let mp : Int := if month ≤ 2 then (month : Int) + 9 else (month : Int) - 3
  let doy : Int := (153 * mp + 2) / 5 + (day : Int) - 1
  let doe : Int := yoe * 365 + yoe / 4 - yoe / 100 + doy
  era * 146097 + doe - 719468

/-- The nanoseconds denoted by the digits of a fractional second: the first
nine digits count, the rest is dropped. -/
def parseNanoseconds (ds : List Nat) : Nat :=
  let nine := (ds ++ List.replicate 9 0).take 9
  nine.foldl (fun acc d => acc * 10 + d) 0

/-- Splits the digits at the front of a list off. -/
def spanDigits : List Char → List Nat × List Char
  | [] => ([], [])
  | c :: cs =>
    match digitVal c with
    | some d => let r := spanDigits cs; (d :: r.1, r.2)
    | none => ([], c :: cs)

/-- The zone of an RFC 3339 timestamp in seconds east of UTC. -/
def parseZone (cs : List Char) : Option Int :=
  match cs with
  | [z] => if z.toNat = 90 then some 0 else none
  | [sg, h1, h2, co, m1, m2] =>
    match parseUint [h1, h2] 0 23, parseUint [m1, m2] 0 59 with
    | some hr, some mm =>
      if co.toNat = 58 then
        if sg.toNat = 43 then some (((hr * 60 + mm) * 60 : Nat) : Int)
        else if sg.toNat = 45 then some (-(((hr * 60 + mm) * 60 : Nat) : Int))
        else none
      else none
    | _, _ => none
  | _ => none

/-- The RFC 3339 parser of `time.Parse`: the instant of a timestamp in
nanoseconds since the Unix epoch. -/
def parseRFC3339 (s : String) : Option Int :=
  match s.data with
  | y1 :: y2 :: y3 :: y4 :: d1 :: mo1 :: mo2 :: d2 :: da1 :: da2 :: t :: h1 :: h2 :: c1 ::
      mi1 :: mi2 :: c2 :: s1 :: s2 :: rest =>
    match parseUint [y1, y2, y3, y4] 0 9999, parseUint [mo1, mo2] 1 12 with
    | some year, some month =>
      match parseUint [da1, da2] 1 (daysIn month year), parseUint [h1, h2] 0 23,
        parseUint [mi1, mi2] 0 59, parseUint [s1, s2] 0 59 with
      | some day, some hour, some minute, some sec =>
        if d1.toNat = 45 ∧ d2.toNat = 45 ∧ t.toNat = 84 ∧ c1.toNat = 58 ∧ c2.toNat = 58 then
          let frac : Nat × List Char :=
            match rest with
            | dot :: rest1 =>
              if dot.toNat = 46 then
                match spanDigits rest1 with
                | ([], _) => (0, rest)
                | (ds, rest2) => (parseNanoseconds ds, rest2)
              else (0, rest)
            | [] => (0, rest)
          match parseZone frac.2 with
          | some zone =>
            let secs : Int := daysFromCivil year month day * 86400 +
              ((hour * 3600 + minute * 60 + sec : Nat) : Int) - zone
            some (secs * 1000000000 + (frac.1 : Int))
          | none => none
        else none
      | _, _, _, _ => none
    | _, _ => none
  | _ => none

/-- The double quote. -/
def dquote : Char := Char.ofNat 34

/-- The backslash. -/
def bslash : Char := Char.ofNat 92

/-- The lower-case hexadecimal digit of a number below sixteen. -/
def hexDigit (n : Nat) : Char :=
  if n < 10 then Char.ofNat (48 + n) else Char.ofNat (87 + n)

/-- The value of a hexadecimal digit. -/
def hexVal (c : Char) : Option Nat :=
  let n := c.toNat
  if 48 ≤ n ∧ n ≤ 57 then some (n - 48)
  else if 97 ≤ n ∧ n ≤ 102 then some (n - 87)
  else if 65 ≤ n ∧ n ≤ 70 then some (n - 55)
  else none

/-- How the JSON encoder writes one character of a string. -/
def escapeChar (c : Char) : List Char :=
  let n := c.toNat
  if n = 34 ∨ n = 92 then [bslash, c]
  else if n = 8 then [bslash, Char.ofNat 98]
  else if n = 12 then [bslash, Char.ofNat 102]
  else if n = 10 then [bslash, Char.ofNat 110]
  else if n = 13 then [bslash, Char.ofNat 114]
  else if n = 9 then [bslash, Char.ofNat 116]
  else if n < 32 ∨ n = 60 ∨ n = 62 ∨ n = 38 ∨ n = 8232 ∨ n = 8233 then
    [bslash, Char.ofNat 117, hexDigit (n / 4096 % 16), hexDigit (n / 256 % 16),
      hexDigit (n / 16 % 16), hexDigit (n % 16)]
  else [c]

/-- A string as a JSON string literal. -/
def quote (s : String) : List Char :=
  dquote :: (s.data.flatMap escapeChar ++ [dquote])

/-- The output of `Encode` for a token record: the object and a line feed. -/
def jsonEncode (t : TokenResponse) : String :=
  String.mk ((Char.ofNat 123 :: quote "token") ++ (Char.ofNat 58 :: quote t.Token) ++
    (Char.ofNat 44 :: quote "expires") ++ (Char.ofNat 58 :: quote t.Expires) ++
    [Char.ofNat 125, Char.ofNat 10])

/-- The character a one-letter escape stands for. -/
def simpleEscape (c : Char) : Option Char :=
  let n := c.toNat
  if n = 34 ∨ n = 92 ∨ n = 47 then some c
  else if n = 98 then some (Char.ofNat 8)
  else if n = 102 then some (Char.ofNat 12)
  else if n = 110 then some (Char.ofNat 10)
  else if n = 114 then some (Char.ofNat 13)
  else if n = 116 then some (Char.ofNat 9)
  else none

/-- The number four hexadecimal digits denote. -/
def hex4Val (a b c d : Char) : Option Nat :=
  match hexVal a, hexVal b, hexVal c, hexVal d with
  | some x, some y, some z, some w => some (x * 4096 + y * 256 + z * 16 + w)
  | _, _, _, _ => none

/-- Reads a JSON string literal after its opening quote: the string and the
input after the closing quote. A lone surrogate escape reads as U+FFFD. -/
def unquoteBody : Nat → List Char → Option (List Char × List Char)
  | 0, _ => none
  | _ + 1, [] => none
  | fuel + 1, c :: cs =>
    if c.toNat = 34 then some ([], cs)
    else if c.toNat = 92 then
      match cs with
      | [] => none
      | e :: cs1 =>
        if e.toNat = 117 then
          match cs1 with
          | a :: b :: c2 :: d :: cs2 =>
            match hex4Val a b c2 d with
            | none => none
            | some v =>
              if 55296 ≤ v ∧ v < 56320 then
                match cs2 with
                | b1 :: u1 :: a2 :: b2 :: c3 :: d2 :: cs3 =>
                  match hex4Val a2 b2 c3 d2 with
                  | some v2 =>
                    if b1.toNat = 92 ∧ u1.toNat = 117 ∧ 56320 ≤ v2 ∧ v2 < 57344 then
                      (unquoteBody fuel cs3).map fun r =>
                        (Char.ofNat (65536 + (v - 55296) * 1024 + (v2 - 56320)) :: r.1, r.2)
                    else (unquoteBody fuel cs2).map fun r => (Char.ofNat 65533 :: r.1, r.2)
                  | none => (unquoteBody fuel cs2).map fun r => (Char.ofNat 65533 :: r.1, r.2)
                | _ => (unquoteBody fuel cs2).map fun r => (Char.ofNat 65533 :: r.1, r.2)
              else if 56320 ≤ v ∧ v < 57344 then
                (unquoteBody fuel cs2).map fun r => (Char.ofNat 65533 :: r.1, r.2)
              else (unquoteBody fuel cs2).map fun r => (Char.ofNat v :: r.1, r.2)
          | _ => none
        else
          match simpleEscape e with
          | none => none
          | some x => (unquoteBody fuel cs1).map fun r => (x :: r.1, r.2)
    else if c.toNat < 32 then none
    else (unquoteBody fuel cs).map fun r => (c :: r.1, r.2)

/-- The JSON white space characters. -/
def isJsonSpace (c : Char) : Bool :=
  c.toNat == 32 || c.toNat == 9 || c.toNat == 10 || c.toNat == 13

/-- The input without the white space at its front. -/
def skipSpace (cs : List Char) : List Char := cs.dropWhile isJsonSpace

/-- A JSON string literal at the front of the input, after white space. -/
def parseString (cs : List Char) : Option (String × List Char) :=
  match skipSpace cs with
  | q :: rest =>
    if q.toNat = 34 then (unquoteBody (rest.length + 1) rest).map fun r => (String.mk r.1, r.2)
    else none
  | [] => none

/-- The ASCII lower-case form of a string. -/
def lower (s : String) : String :=
  String.mk (s.data.map fun c => if 65 ≤ c.toNat ∧ c.toNat ≤ 90 then Char.ofNat (c.toNat + 32) else c)

/-- Stores the value of a member in the field its key names, if any; keys
match without regard to case. -/
def setField (t : TokenResponse) (key value : String) : TokenResponse :=
  if lower key = "token" then { t with Token := value }
  else if lower key = "expires" then { t with Expires := value }
  else t

/-- The members of an object after the first, up to the closing brace. -/
def parseMembers : Nat → TokenResponse → List Char → Option (TokenResponse × List Char)
  | 0, _, _ => none
  | fuel + 1, t, cs =>
    match parseString cs with
    | none => none
    | some (key, rest) =>
      match skipSpace rest with
      | colon :: rest1 =>
        if colon.toNat = 58 then
          match parseString rest1 with
          | none => none
          | some (value, rest2) =>
            match skipSpace rest2 with
            | sep :: rest3 =>
              if sep.toNat = 125 then some (setField t key value, rest3)
              else if sep.toNat = 44 then parseMembers fuel (setField t key value) rest3
              else none
            | [] => none
        else none
      | [] => none

/-- A JSON object with string members at the front of the input, read into
a token record whose fields start empty. -/
def parseObject (cs : List Char) : Option (TokenResponse × List Char) :=
  match skipSpace cs with
  | open1 :: rest =>
    if open1.toNat = 123 then
      match skipSpace rest with
      | close1 :: rest1 =>
        if close1.toNat = 125 then some (⟨"", ""⟩, rest1)
        else parseMembers (rest.length + 1) ⟨"", ""⟩ rest
      | [] => none
    else none
  | [] => none

/-- The function `json.Unmarshal`: the whole input is one object. -/
def jsonUnmarshal (s : String) : Option TokenResponse :=
  match parseObject s.data with
  | some (t, rest) => if skipSpace rest = [] then some t else none
  | none => none

/-- The function `Decode` of a JSON decoder: the first value of the input. -/
def jsonDecode (s : String) : Option TokenResponse :=
  (parseObject s.data).map fun r => r.1

end Ref

/-- The reference environment at an instant, with no write failing, an
operator who types the given texts and a server that gives the given answer. -/
def Env.ref (now : Int) (typed : Key → String)
    (httpDo : String → String → String → Option (Nat × String × String)) : Env where
  now := now
  parseRFC3339 := Ref.parseRFC3339
  jsonUnmarshal := Ref.jsonUnmarshal
  jsonEncode := Ref.jsonEncode
  jsonDecode := Ref.jsonDecode
  createFails := false
  writeFailsAfter := none
  keyringSetFails := fun _ => false
  typed := typed
  newRequestFails := fun _ => false
  httpDo := httpDo

/-! ## Observations on a run -/

/-- The result of the authentication call for given credentials: what
`getBearerToken` returns, whatever the state it is called in. -/
def authOutcome (env : Env) (username password url : String) : Except Err TokenResponse :=
  (getBearerToken env username password url (State.init none Keyring.empty)).1

/-- The credentials of the calls of `getBearerToken` in a trace, in order. -/
def authCalls (tr : List Event) : List (String × String × String) :=
  tr.filterMap fun e =>
    match e with
    | .authCall u p url => some (u, p, url)
    | _ => none

/-- The fields the operator was asked for in a trace, in order. -/
def prompts (tr : List Event) : List Key :=
  tr.filterMap fun e =>
    match e with
    | .prompt k => some k
    | _ => none

/-- The calls that touch the cache file for writing in a trace. -/
def cacheWrites (tr : List Event) : List Event :=
  tr.filter fun e =>
    match e with
    | .createFile => true
    | .writeFile _ => true
    | .removeFile => true
    | _ => false

/-- The tokens printed on standard output, in order. -/
def tokensPrinted (out : List Output) : List String :=
  out.filterMap fun o =>
    match o with
    | .validToken t => some t
    | .newToken t => some t
    | _ => none

/-- The credentials the operator enters at the prompt, white space trimmed. -/
def prompted (env : Env) : String × String × String :=
  (trimSpace (env.typed .username), trimSpace (env.typed .password),
    trimSpace (env.typed .url))

/-- The state with another cache file. -/
def State.setFile (s : State) (f : Option String) : State :=
  { s with cacheFile := f }

/-! ## Concrete runs -/

namespace Example

/-- A token record that expires on 2025-01-01 at midnight UTC. -/
def record : TokenResponse := ⟨"abc123", "2025-01-01T00:00:00Z"⟩

/-- The cache file that holds `record`. -/
def recordFile : String :=
  "\x7b\"token\":\"abc123\",\"expires\":\"2025-01-01T00:00:00Z\"\x7d\n"

/-- The instant 2025-01-01T00:00:00Z in nanoseconds since the Unix epoch. -/
def expiry : Int := 1735689600000000000

/-- One hour in nanoseconds. -/
def hour : Int := 3600000000000

/-- A server that cannot be reached. -/
def noServer : String → String → String → Option (Nat × String × String) :=
  fun _ _ _ => none

/-- An operator who types nothing. -/
def silent : Key → String := fun _ => ""

/-- A state whose cache file holds `record` and whose keyring is empty. -/
def cached : State := State.init (some recordFile) Keyring.empty

/-- One hour before `record` expires. -/
def envBefore : Env := Env.ref (expiry - hour) silent noServer

/-- The very instant at which `record` expires. -/
def envAtExpiry : Env := Env.ref expiry silent noServer

/-- The record the server issues: it expires two hours after `record`. -/
def fresh : TokenResponse := ⟨"new456", "2025-01-01T02:00:00Z"⟩

/-- The response body, and the cache file, that hold `fresh`. -/
def freshFile : String :=
  "\x7b\"token\":\"new456\",\"expires\":\"2025-01-01T02:00:00Z\"\x7d\n"

/-- A server at `https://mdm.example.com` that knows the account `admin` with
the password `secret`: it answers 200 with `fresh` to it and 401 to all else. -/
def server : String → String → String → Option (Nat × String × String) :=
  fun target u p =>
    if target = "https://mdm.example.com/api/v1/auth/token" ∧ u = "admin" ∧ p = "secret" then
      some (200, "200 OK", freshFile)
    else some (401, "401 Unauthorized", "")

/-- The keyring that holds the credentials of the account. -/
def stored : Keyring := ⟨some "admin", some "secret", some "https://mdm.example.com"⟩

/-- An operator who types the credentials of the account, with a line end. -/
def typist : Key → String
  | .username => "admin\n"
  | .password => "secret"
  | .url => "https://mdm.example.com\n"

/-- One hour after `record` has expired, with the server up. -/
def envAfter : Env := Env.ref (expiry + hour) typist server

/-- As `envAfter`, but `os.Create` of the cache file fails. -/
def envCreateFails : Env := { envAfter with createFails := true }

/-- As `envAfter`, but `keyring.Set` fails for every key. -/
def envSetFails : Env := { envAfter with keyringSetFails := fun _ => true }

/-- The cache holds the expired `record`, the keyring the credentials. -/
def expiredStored : State := State.init (some recordFile) stored

/-- No cache file, the keyring holds the credentials. -/
def missingStored : State := State.init none stored

/-- No cache file, the keyring lacks the url. -/
def missingUrl : State := State.init none ⟨some "admin", some "secret", none⟩

/-- No cache file, the stored url is the empty string. -/
def emptyUrl : State := State.init none ⟨some "admin", some "secret", some ""⟩

/-- No cache file, the stored user name is the empty string. -/
def emptyUsername : State :=
  State.init none ⟨some "", some "secret", some "https://mdm.example.com"⟩

/-- No cache file, the stored password is the empty string. -/
def emptyPassword : State :=
  State.init none ⟨some "admin", some "", some "https://mdm.example.com"⟩

/-- Nothing at all: no cache file and an empty keyring. -/
def blank : State := State.init none Keyring.empty

end Example

/-! ## The reference codec reads back what it writes -/

namespace Ref

theorem hexVal_hexDigit : ∀ d, d < 16 → hexVal (hexDigit d) = some d := by
  decide

theorem hex4Val_digits (n : Nat) (h : n < 65536) :
    hex4Val (hexDigit (n / 4096 % 16)) (hexDigit (n / 256 % 16)) (hexDigit (n / 16 % 16))
      (hexDigit (n % 16)) = some n := by
  unfold hex4Val
  rw [hexVal_hexDigit _ (Nat.mod_lt _ (by decide)), hexVal_hexDigit _ (Nat.mod_lt _ (by decide)),
    hexVal_hexDigit _ (Nat.mod_lt _ (by decide)), hexVal_hexDigit _ (Nat.mod_lt _ (by decide))]
  simp only [Option.some.injEq]
  omega

theorem bslash_toNat : bslash.toNat = 92 := by decide

theorem dquote_toNat : dquote.toNat = 34 := by decide

theorem unquoteBody_escape_simple (c e : Char) (fuel : Nat) (rest : List Char)
    (h : escapeChar c = [bslash, e]) (he : e.toNat ≠ 117) (hs : simpleEscape e = some c) :
    unquoteBody (fuel + 1) (escapeChar c ++ rest) =
      (unquoteBody fuel rest).map fun r => (c :: r.1, r.2) := by
  rw [h]
  simp [unquoteBody, bslash_toNat, he, hs]

theorem unquoteBody_escape_hex (c : Char) (fuel : Nat) (rest : List Char)
    (h : escapeChar c = [bslash, Char.ofNat 117, hexDigit (c.toNat / 4096 % 16),
      hexDigit (c.toNat / 256 % 16), hexDigit (c.toNat / 16 % 16), hexDigit (c.toNat % 16)])
    (hn : c.toNat < 55296) :
    unquoteBody (fuel + 1) (escapeChar c ++ rest) =
      (unquoteBody fuel rest).map fun r => (c :: r.1, r.2) := by
  rw [h]
  have hu : (Char.ofNat 117).toNat = 117 := by decide
  have h1 : ¬ (55296 ≤ c.toNat ∧ c.toNat < 56320) := by omega
  have h2 : ¬ (56320 ≤ c.toNat ∧ c.toNat < 57344) := by omega
  simp only [List.cons_append, List.nil_append]
  simp only [unquoteBody, bslash_toNat, hu, if_true]
  rw [hex4Val_digits c.toNat (by omega)]
  simp [h1, h2, Char.ofNat_toNat]

theorem unquoteBody_escapeChar (c : Char) (fuel : Nat) (rest : List Char) :
    unquoteBody (fuel + 1) (escapeChar c ++ rest) =
      (unquoteBody fuel rest).map fun r => (c :: r.1, r.2) := by
  by_cases h1 : c.toNat = 34 ∨ c.toNat = 92
  · refine unquoteBody_escape_simple c c fuel rest ?_ (by omega) ?_
    · simp [escapeChar, h1]
    · have h2 : c.toNat = 34 ∨ c.toNat = 92 ∨ c.toNat = 47 := by omega
      simp [simpleEscape, h2]
  · by_cases h2 : c.toNat = 8 ∨ c.toNat = 12 ∨ c.toNat = 10 ∨ c.toNat = 13 ∨ c.toNat = 9
    · rcases h2 with h | h | h | h | h
      · have hc : c = Char.ofNat 8 := by rw [← h, Char.ofNat_toNat]
        subst hc
        exact unquoteBody_escape_simple _ (Char.ofNat 98) fuel rest (by decide) (by decide)
          (by decide)
      · have hc : c = Char.ofNat 12 := by rw [← h, Char.ofNat_toNat]
        subst hc
        exact unquoteBody_escape_simple _ (Char.ofNat 102) fuel rest (by decide) (by decide)
          (by decide)
      · have hc : c = Char.ofNat 10 := by rw [← h, Char.ofNat_toNat]
        subst hc
        exact unquoteBody_escape_simple _ (Char.ofNat 110) fuel rest (by decide) (by decide)
          (by decide)
      · have hc : c = Char.ofNat 13 := by rw [← h, Char.ofNat_toNat]
        subst hc
        exact unquoteBody_escape_simple _ (Char.ofNat 114) fuel rest (by decide) (by decide)
          (by decide)
      · have hc : c = Char.ofNat 9 := by rw [← h, Char.ofNat_toNat]
        subst hc
        exact unquoteBody_escape_simple _ (Char.ofNat 116) fuel rest (by decide) (by decide)
          (by decide)
    · by_cases h3 : c.toNat < 32 ∨ c.toNat = 60 ∨ c.toNat = 62 ∨ c.toNat = 38 ∨
          c.toNat = 8232 ∨ c.toNat = 8233
      · refine unquoteBody_escape_hex c fuel rest ?_ (by omega)
        have a1 : c.toNat ≠ 8 := by omega
        have a2 : c.toNat ≠ 12 := by omega
        have a3 : c.toNat ≠ 10 := by omega
        have a4 : c.toNat ≠ 13 := by omega
        have a5 : c.toNat ≠ 9 := by omega
        simp [escapeChar, h1, a1, a2, a3, a4, a5, h3]
      · have a1 : c.toNat ≠ 8 := by omega
        have a2 : c.toNat ≠ 12 := by omega
        have a3 : c.toNat ≠ 10 := by omega
        have a4 : c.toNat ≠ 13 := by omega
        have a5 : c.toNat ≠ 9 := by omega
        have a6 : c.toNat ≠ 34 := by omega
        have a7 : c.toNat ≠ 92 := by omega
        have a8 : ¬ c.toNat < 32 := by omega
        have he : escapeChar c = [c] := by
          simp [escapeChar, h1, a1, a2, a3, a4, a5, h3]
        rw [he]
        simp [unquoteBody, a6, a7, a8]

theorem length_le_escape (cs : List Char) : cs.length ≤ (cs.flatMap escapeChar).length := by
  induction cs with
  | nil => simp
  | cons c cs ih =>
    have h : 1 ≤ (escapeChar c).length := by
      unfold escapeChar
      simp only []
      repeat' split
      all_goals simp
    simp only [List.flatMap_cons, List.length_cons, List.length_append]
    omega

theorem unquoteBody_flatMap (cs : List Char) :
    ∀ (fuel : Nat) (rest : List Char), cs.length < fuel →
      unquoteBody fuel (cs.flatMap escapeChar ++ dquote :: rest) = some (cs, rest) := by
  induction cs with
  | nil =>
    intro fuel rest h
    obtain ⟨f, rfl⟩ : ∃ f, fuel = f + 1 := ⟨fuel - 1, by simp at h; omega⟩
    simp [unquoteBody, dquote_toNat]
  | cons c cs ih =>
    intro fuel rest h
    obtain ⟨f, rfl⟩ : ∃ f, fuel = f + 1 := ⟨fuel - 1, by simp at h; omega⟩
    rw [List.flatMap_cons, List.append_assoc, unquoteBody_escapeChar,
      ih f rest (by simpa using h)]
    rfl

theorem isJsonSpace_dquote : isJsonSpace dquote = false := by decide

theorem parseString_quote (s : String) (rest : List Char) :
    parseString (quote s ++ rest) = some (s, rest) := by
  unfold parseString quote skipSpace
  simp only [List.cons_append, List.dropWhile_cons, isJsonSpace_dquote, Bool.false_eq_true,
    if_false, dquote_toNat, if_true, List.append_assoc, List.singleton_append,
    List.nil_append]
  rw [unquoteBody_flatMap s.data _ rest (by
    have := length_le_escape s.data
    simp only [List.length_append, List.length_cons]
    omega)]
  rfl

theorem parseMembers_comma (fuel : Nat) (t : TokenResponse) (key value : String)
    (rest : List Char) :
    parseMembers (fuel + 1) t
        (quote key ++ Char.ofNat 58 :: (quote value ++ Char.ofNat 44 :: rest)) =
      parseMembers fuel (setField t key value) rest := by
  have h58 : isJsonSpace (Char.ofNat 58) = false := by decide
  have h44 : isJsonSpace (Char.ofNat 44) = false := by decide
  have c58 : (Char.ofNat 58).toNat = 58 := by decide
  have c44 : (Char.ofNat 44).toNat = 44 := by decide
  simp [parseMembers, parseString_quote, skipSpace, h58, h44, c58, c44]

theorem parseMembers_close (fuel : Nat) (t : TokenResponse) (key value : String)
    (rest : List Char) :
    parseMembers (fuel + 1) t
        (quote key ++ Char.ofNat 58 :: (quote value ++ Char.ofNat 125 :: rest)) =
      some (setField t key value, rest) := by
  have h58 : isJsonSpace (Char.ofNat 58) = false := by decide
  have h125 : isJsonSpace (Char.ofNat 125) = false := by decide
  have c58 : (Char.ofNat 58).toNat = 58 := by decide
  have c125 : (Char.ofNat 125).toNat = 125 := by decide
  simp [parseMembers, parseString_quote, skipSpace, h58, h125, c58, c125]

theorem setField_both (r : TokenResponse) :
    setField (setField ⟨"", ""⟩ "token" r.Token) "expires" r.Expires = r := by
  have h1 : lower "token" = "token" := by decide
  have h2 : lower "expires" ≠ "token" := by decide
  have h3 : lower "expires" = "expires" := by decide
  simp [setField, h1, h2, h3]

theorem parseObject_jsonEncode (r : TokenResponse) :
    parseObject (jsonEncode r).data = some (r, [Char.ofNat 10]) := by
  have h123 : isJsonSpace (Char.ofNat 123) = false := by decide
  have c123 : (Char.ofNat 123).toNat = 123 := by decide
  have hshape : (jsonEncode r).data = Char.ofNat 123 ::
      (quote "token" ++ Char.ofNat 58 :: (quote r.Token ++ Char.ofNat 44 ::
        (quote "expires" ++ Char.ofNat 58 :: (quote r.Expires ++ Char.ofNat 125 ::
          [Char.ofNat 10])))) := by
    simp [jsonEncode]
  have hfirst : ∀ (s : String) (rest : List Char), ∃ tail, quote s ++ rest = dquote :: tail :=
    fun s rest => ⟨_, rfl⟩
  obtain ⟨tail, htail⟩ := hfirst "token" (Char.ofNat 58 :: (quote r.Token ++ Char.ofNat 44 ::
    (quote "expires" ++ Char.ofNat 58 :: (quote r.Expires ++ Char.ofNat 125 ::
      [Char.ofNat 10]))))
  have hne : dquote.toNat ≠ 125 := by decide
  rw [hshape]
  unfold parseObject skipSpace
  simp only [List.dropWhile_cons, h123, Bool.false_eq_true, if_false, c123, if_true]
  rw [htail]
  simp only [List.dropWhile_cons, isJsonSpace_dquote, Bool.false_eq_true, if_false, hne]
  rw [← htail, parseMembers_comma, htail, List.length_cons, parseMembers_close, setField_both]

/-- The reference codec reads every record back from its own encoding. -/
theorem jsonUnmarshal_jsonEncode (r : TokenResponse) :
    jsonUnmarshal (jsonEncode r) = some r := by
  unfold jsonUnmarshal
  rw [parseObject_jsonEncode]
  have h : skipSpace [Char.ofNat 10] = [] := by decide
  simp [h]

end Ref

/-! ## Lemmas on the observations -/

theorem authCalls_append (a b : List Event) :
    authCalls (a ++ b) = authCalls a ++ authCalls b := by
  simp [authCalls, List.filterMap_append]

theorem prompts_append (a b : List Event) : prompts (a ++ b) = prompts a ++ prompts b := by
  simp [prompts, List.filterMap_append]

theorem cacheWrites_append (a b : List Event) :
    cacheWrites (a ++ b) = cacheWrites a ++ cacheWrites b := by
  simp [cacheWrites, List.filter_append]

theorem tokensPrinted_append (a b : List Output) :
    tokensPrinted (a ++ b) = tokensPrinted a ++ tokensPrinted b := by
  simp [tokensPrinted, List.filterMap_append]

/-! ## Lemmas on the single operations -/

theorem readCachedToken_state (env : Env) (s : State) :
    (readCachedToken env s).2 = s.log .readFile := by
  unfold readCachedToken
  simp only []
  split
  · rfl
  · split
    · rfl
    · split
      · rfl
      · split <;> rfl

theorem readCachedToken_eq (env : Env) (s : State) :
    readCachedToken env s = ((readCachedToken env s).1, s.log .readFile) := by
  rw [← readCachedToken_state env s]

theorem readCachedToken_none (env : Env) (s : State) (h : s.cacheFile = none) :
    (readCachedToken env s).1 = .error .notExist := by
  unfold readCachedToken
  simp [State.log, h]

theorem readCachedToken_some (env : Env) (s : State) (data : String) (token : TokenResponse)
    (hfile : s.cacheFile = some data) (hdec : env.jsonUnmarshal data = some token) :
    (readCachedToken env s).1 =
      match env.parseRFC3339 token.Expires with
      | none => .error .tokenExpired
      | some expTime => if env.now > expTime then .error .tokenExpired else .ok token := by
  unfold readCachedToken
  simp only [State.log, hfile, hdec]
  split
  · rfl
  · split <;> rfl

theorem getBearerToken_fst (env : Env) (u p url : String) (s : State) :
    (getBearerToken env u p url s).1 = authOutcome env u p url := by
  unfold authOutcome getBearerToken
  simp only []
  split
  · rfl
  · split
    · rfl
    · split
      · rfl
      · split
        · rfl
        · split <;> rfl

theorem getBearerToken_state (env : Env) (u p url : String) (s : State) :
    (getBearerToken env u p url s).2.cacheFile = s.cacheFile ∧
    (getBearerToken env u p url s).2.keyring = s.keyring ∧
    (getBearerToken env u p url s).2.stdout = s.stdout ∧
    ((getBearerToken env u p url s).2.trace = s.trace ++ [.authCall u p url] ∨
     (getBearerToken env u p url s).2.trace =
       s.trace ++ [.authCall u p url, .httpPost (url ++ "/api/v1/auth/token") u p]) := by
  unfold getBearerToken
  simp only []
  split
  · simp [State.log]
  · split
    · simp [State.log]
    · split
      · simp [State.log]
      · split
        · simp [State.log]
        · split <;> simp [State.log]

theorem getBearerToken_ok_trace (env : Env) (u p url : String) (s : State) (r : TokenResponse)
    (h : authOutcome env u p url = .ok r) :
    (getBearerToken env u p url s).2.trace =
      s.trace ++ [.authCall u p url, .httpPost (url ++ "/api/v1/auth/token") u p] := by
  unfold authOutcome at h
  unfold getBearerToken at h ⊢
  by_cases h1 : url = ""
  · simp [h1] at h
  · by_cases h2 : env.newRequestFails (url ++ "/api/v1/auth/token") = true
    · simp [h1, h2] at h
    · simp only [h1, h2, if_false, State.log]
      cases env.httpDo (url ++ "/api/v1/auth/token") u p with
      | none => simp
      | some a =>
        obtain ⟨code, status, body⟩ := a
        by_cases h3 : code = 200
        · cases hd : env.jsonDecode body <;> simp [h3, hd]
        · simp [h3]

theorem promptCredentials_eq (env : Env) (s : State) :
    promptCredentials env s =
      (prompted env,
        { s with
          trace := s.trace ++ [.prompt .username, .prompt .password, .prompt .url]
          stdout := s.stdout ++
            [.promptText .username, .promptText .password, .newline, .promptText .url] }) := by
  simp [promptCredentials, prompted, State.log, State.print]

theorem saveCredentialsToKeyring_cacheFile (env : Env) (u p url : String) (s : State) :
    (saveCredentialsToKeyring env u p url s).2.cacheFile = s.cacheFile ∧
    (saveCredentialsToKeyring env u p url s).2.stdout = s.stdout ∧
    authCalls (saveCredentialsToKeyring env u p url s).2.trace = authCalls s.trace ∧
    cacheWrites (saveCredentialsToKeyring env u p url s).2.trace = cacheWrites s.trace ∧
    prompts (saveCredentialsToKeyring env u p url s).2.trace = prompts s.trace := by
  unfold saveCredentialsToKeyring keyringSet
  simp only [State.log]
  cases env.keyringSetFails .username <;> cases env.keyringSetFails .password <;>
    cases env.keyringSetFails .url <;>
    simp [authCalls, cacheWrites, prompts, List.filterMap_append, List.filter_append]

theorem saveCredentialsToKeyring_ok (env : Env) (u p url : String) (s : State)
    (h : ∀ k, env.keyringSetFails k = false) :
    saveCredentialsToKeyring env u p url s =
      (none,
        { s with
          keyring := ⟨some u, some p, some url⟩
          trace := s.trace ++ [.keyringSet .username u, .keyringSet .password p,
            .keyringSet .url url] }) := by
  simp [saveCredentialsToKeyring, keyringSet, State.log, h, Keyring.put]

theorem getCredentialsFromKeyring_state (s : State) :
    (getCredentialsFromKeyring s).2.cacheFile = s.cacheFile ∧
    (getCredentialsFromKeyring s).2.keyring = s.keyring ∧
    (getCredentialsFromKeyring s).2.stdout = s.stdout ∧
    authCalls (getCredentialsFromKeyring s).2.trace = authCalls s.trace ∧
    cacheWrites (getCredentialsFromKeyring s).2.trace = cacheWrites s.trace ∧
    prompts (getCredentialsFromKeyring s).2.trace = prompts s.trace := by
  obtain ⟨f, ⟨a, b, c⟩, tr, out⟩ := s
  cases a <;> cases b <;> cases c <;>
    simp [getCredentialsFromKeyring, keyringGet, State.log, Keyring.get, authCalls,
      cacheWrites, prompts, List.filterMap_append, List.filter_append]

theorem getCredentialsFromKeyring_ok (s : State) (u p url : String)
    (hu : s.keyring.get .username = some u) (hp : s.keyring.get .password = some p)
    (hurl : s.keyring.get .url = some url) :
    getCredentialsFromKeyring s =
      (.ok (u, p, url),
        { s with trace := s.trace ++ [.keyringGet .username, .keyringGet .password,
            .keyringGet .url] }) := by
  simp [getCredentialsFromKeyring, keyringGet, State.log, hu, hp, hurl]

theorem getCredentialsFromKeyring_ok_inv (s : State) (c : String × String × String)
    (h : (getCredentialsFromKeyring s).1 = .ok c) :
    s.keyring.get .username = some c.1 ∧ s.keyring.get .password = some c.2.1 ∧
      s.keyring.get .url = some c.2.2 := by
  obtain ⟨f, ⟨a, b, d⟩, tr, out⟩ := s
  cases a <;> cases b <;> cases d <;>
    simp [getCredentialsFromKeyring, keyringGet, State.log, Keyring.get] at h
  subst h
  simp [Keyring.get]

theorem getCredentialsFromKeyring_missing (s : State) (k : Key) (h : s.keyring.get k = none) :
    (getCredentialsFromKeyring s).1 = .error .keyringNotFound := by
  obtain ⟨f, ⟨a, b, d⟩, tr, out⟩ := s
  cases a <;> cases b <;> cases d <;>
    simp [getCredentialsFromKeyring, keyringGet, State.log, Keyring.get]
  cases k <;> simp [Keyring.get] at h

/-! ## The cache-miss path of the `token` command -/

theorem getCredentialsFromKeyring_frame (s : State) (f : Option String) :
    getCredentialsFromKeyring (s.setFile f) =
      ((getCredentialsFromKeyring s).1, (getCredentialsFromKeyring s).2.setFile f) := by
  obtain ⟨g, ⟨a, b, c⟩, tr, out⟩ := s
  cases a <;> cases b <;> cases c <;>
    simp [getCredentialsFromKeyring, keyringGet, State.log, Keyring.get, State.setFile]

theorem saveCredentialsToKeyring_frame (env : Env) (u p url : String) (s : State)
    (f : Option String) :
    saveCredentialsToKeyring env u p url (s.setFile f) =
      ((saveCredentialsToKeyring env u p url s).1,
        (saveCredentialsToKeyring env u p url s).2.setFile f) := by
  unfold saveCredentialsToKeyring keyringSet
  simp only [State.log, State.setFile]
  cases env.keyringSetFails .username <;> cases env.keyringSetFails .password <;>
    cases env.keyringSetFails .url <;> simp

theorem promptCredentials_frame (env : Env) (s : State) (f : Option String) :
    promptCredentials env (s.setFile f) =
      ((promptCredentials env s).1, (promptCredentials env s).2.setFile f) := by
  simp [promptCredentials_eq, State.setFile]

theorem resolveCredentials_frame (env : Env) (s : State) (f : Option String) :
    resolveCredentials env (s.setFile f) =
      ((resolveCredentials env s).1, (resolveCredentials env s).2.setFile f) := by
  unfold resolveCredentials
  rw [getCredentialsFromKeyring_frame]
  cases hg : (getCredentialsFromKeyring s) with
  | mk r s1 =>
    cases r with
    | error e =>
      simp only [promptCredentials_frame, saveCredentialsToKeyring_frame]
    | ok c =>
      obtain ⟨u, p, url⟩ := c
      simp only []
      by_cases hurl : url = ""
      · simp only [hurl, if_true, promptCredentials_frame, saveCredentialsToKeyring_frame]
      · simp only [hurl, if_false]

theorem getBearerToken_frame (env : Env) (u p url : String) (s : State) (f : Option String) :
    getBearerToken env u p url (s.setFile f) =
      ((getBearerToken env u p url s).1, (getBearerToken env u p url s).2.setFile f) := by
  unfold getBearerToken
  simp only [State.log, State.setFile]
  by_cases h1 : url = ""
  · simp [h1]
  · by_cases h2 : env.newRequestFails (url ++ "/api/v1/auth/token") = true
    · simp [h1, h2]
    · simp only [h1, h2, if_false]
      cases env.httpDo (url ++ "/api/v1/auth/token") u p with
      | none => simp
      | some a =>
        obtain ⟨code, status, body⟩ := a
        by_cases h3 : code = 200
        · cases hd : env.jsonDecode body <;> simp [h3, hd]
        · simp [h3]

theorem resolveCredentials_state (env : Env) (s : State) :
    (resolveCredentials env s).2.cacheFile = s.cacheFile ∧
    authCalls (resolveCredentials env s).2.trace = authCalls s.trace ∧
    cacheWrites (resolveCredentials env s).2.trace = cacheWrites s.trace ∧
    tokensPrinted (resolveCredentials env s).2.stdout = tokensPrinted s.stdout := by
  have hg := getCredentialsFromKeyring_state s
  unfold resolveCredentials
  cases hgc : (getCredentialsFromKeyring s) with
  | mk r s1 =>
    rw [hgc] at hg
    simp only at hg
    obtain ⟨hg1, -, hg3, hg4, hg5, -⟩ := hg
    have key : ∀ c : String × String × String,
        (saveCredentialsToKeyring env c.1 c.2.1 c.2.2 (promptCredentials env s1).2).2.cacheFile
          = s.cacheFile ∧
        authCalls (saveCredentialsToKeyring env c.1 c.2.1 c.2.2
          (promptCredentials env s1).2).2.trace = authCalls s.trace ∧
        cacheWrites (saveCredentialsToKeyring env c.1 c.2.1 c.2.2
          (promptCredentials env s1).2).2.trace = cacheWrites s.trace ∧
        tokensPrinted (saveCredentialsToKeyring env c.1 c.2.1 c.2.2
          (promptCredentials env s1).2).2.stdout = tokensPrinted s.stdout := by
      intro c
      obtain ⟨h1, h2, h3, h4, -⟩ :=
        saveCredentialsToKeyring_cacheFile env c.1 c.2.1 c.2.2 (promptCredentials env s1).2
      rw [h1, h2, h3, h4, promptCredentials_eq]
      simp only [authCalls_append, cacheWrites_append, tokensPrinted_append, hg1, hg3, hg4, hg5]
      simp [authCalls, cacheWrites, tokensPrinted]
    cases r with
    | error e => exact key _
    | ok c =>
      obtain ⟨u, p, url⟩ := c
      simp only []
      by_cases hurl : url = ""
      · simp only [hurl, if_true]
        exact key _
      · simp only [hurl, if_false]
        exact ⟨hg1, hg4, hg5, by rw [hg3]⟩

theorem resolveCredentials_out (env : Env) (s : State) :
    ∀ t, Output.validToken t ∈ (resolveCredentials env s).2.stdout →
      Output.validToken t ∈ s.stdout := by
  have hg := getCredentialsFromKeyring_state s
  unfold resolveCredentials
  cases hgc : (getCredentialsFromKeyring s) with
  | mk r s1 =>
    rw [hgc] at hg
    simp only at hg
    obtain ⟨-, -, hg3, -, -, -⟩ := hg
    have key : ∀ c : String × String × String, ∀ t,
        Output.validToken t ∈ (saveCredentialsToKeyring env c.1 c.2.1 c.2.2
          (promptCredentials env s1).2).2.stdout → Output.validToken t ∈ s.stdout := by
      intro c t ht
      rw [(saveCredentialsToKeyring_cacheFile env c.1 c.2.1 c.2.2 _).2.1,
        promptCredentials_eq] at ht
      simpa [hg3] using ht
    cases r with
    | error e => exact key _
    | ok c =>
      obtain ⟨u, p, url⟩ := c
      simp only []
      by_cases hurl : url = ""
      · simp only [hurl, if_true]
        exact key _
      · simp only [hurl, if_false]
        intro t ht
        rwa [hg3] at ht

/-- The `token` command after a cache miss: credentials are resolved, the
authentication call is made once, and only its success leads on to the write
of the cache file and the printing of the token. -/
theorem tokenAction_miss (env : Env) (s : State) (e : Err)
    (h : (readCachedToken env s).1 = .error e) :
    tokenAction env s =
      match getBearerToken env (resolveCredentials env (s.log .readFile)).1.1
          (resolveCredentials env (s.log .readFile)).1.2.1
          (resolveCredentials env (s.log .readFile)).1.2.2
          (resolveCredentials env (s.log .readFile)).2 with
      | (.error err, s1) => (some err, s1)
      | (.ok token, s1) =>
        (none, ((writeCachedToken env token s1).2.print (.newToken token.Token)).print
          (.expires ((env.parseRFC3339 token.Expires).getD zeroTime))) := by
  unfold tokenAction
  rw [readCachedToken_eq, h]

theorem writeCachedToken_state (env : Env) (r : TokenResponse) (s : State) :
    (writeCachedToken env r s).2.keyring = s.keyring ∧
    (writeCachedToken env r s).2.stdout = s.stdout ∧
    authCalls (writeCachedToken env r s).2.trace = authCalls s.trace ∧
    prompts (writeCachedToken env r s).2.trace = prompts s.trace := by
  unfold writeCachedToken
  simp only [State.log]
  cases env.createFails <;> cases env.writeFailsAfter <;>
    simp [authCalls, prompts, List.filterMap_append]

theorem writeCachedToken_ok (env : Env) (r : TokenResponse) (s : State)
    (hc : env.createFails = false) (hw : env.writeFailsAfter = none) :
    writeCachedToken env r s =
      (none,
        { s with
          cacheFile := some (env.jsonEncode r)
          trace := s.trace ++ [.mkdirAll, .createFile, .writeFile (env.jsonEncode r)] }) := by
  simp [writeCachedToken, State.log, hc, hw]

theorem writeCachedToken_success (env : Env) (r : TokenResponse) (s : State)
    (h : (writeCachedToken env r s).1 = none) :
    env.createFails = false ∧ env.writeFailsAfter = none := by
  unfold writeCachedToken at h
  simp only [State.log] at h
  cases hc : env.createFails <;> cases hw : env.writeFailsAfter <;> simp [hc, hw] at h
  exact ⟨rfl, rfl⟩

theorem writeCachedToken_frame (env : Env) (r : TokenResponse) (s : State) (f : Option String) :
    (writeCachedToken env r (s.setFile f)).1 = (writeCachedToken env r s).1 ∧
    (writeCachedToken env r (s.setFile f)).2.keyring = (writeCachedToken env r s).2.keyring ∧
    (writeCachedToken env r (s.setFile f)).2.trace = (writeCachedToken env r s).2.trace ∧
    (writeCachedToken env r (s.setFile f)).2.stdout = (writeCachedToken env r s).2.stdout ∧
    (env.createFails = false →
      (writeCachedToken env r (s.setFile f)).2.cacheFile =
        (writeCachedToken env r s).2.cacheFile) := by
  unfold writeCachedToken
  simp only [State.log, State.setFile]
  cases env.createFails <;> cases env.writeFailsAfter <;> simp

/-- After a cache miss the `token` command does not look at the cache file
again: two runs from states that differ in the cache file only return the
same result, make the same calls in the same order, print the same and leave
the same keyring; they leave the same cache file when the token was obtained
and `os.Create` did not fail. -/
theorem tokenAction_miss_frame (env : Env) (s : State) (f g : Option String) (e1 e2 : Err)
    (h1 : (readCachedToken env (s.setFile f)).1 = .error e1)
    (h2 : (readCachedToken env (s.setFile g)).1 = .error e2) :
    (tokenAction env (s.setFile f)).1 = (tokenAction env (s.setFile g)).1 ∧
    (tokenAction env (s.setFile f)).2.trace = (tokenAction env (s.setFile g)).2.trace ∧
    (tokenAction env (s.setFile f)).2.stdout = (tokenAction env (s.setFile g)).2.stdout ∧
    (tokenAction env (s.setFile f)).2.keyring = (tokenAction env (s.setFile g)).2.keyring ∧
    ((tokenAction env (s.setFile f)).1 = none → env.createFails = false →
      (tokenAction env (s.setFile f)).2.cacheFile =
        (tokenAction env (s.setFile g)).2.cacheFile) := by
  rw [tokenAction_miss env _ e1 h1, tokenAction_miss env _ e2 h2]
  have hl : ∀ x : Option String, (s.setFile x).log .readFile = (s.log .readFile).setFile x :=
    fun _ => rfl
  rw [hl f, hl g, resolveCredentials_frame env _ f, resolveCredentials_frame env _ g]
  simp only []
  rw [getBearerToken_frame env _ _ _ _ f, getBearerToken_frame env _ _ _ _ g]
  cases (getBearerToken env (resolveCredentials env (s.log .readFile)).1.1
      (resolveCredentials env (s.log .readFile)).1.2.1
      (resolveCredentials env (s.log .readFile)).1.2.2
      (resolveCredentials env (s.log .readFile)).2) with
  | mk r s1 =>
    cases r with
    | error err => simp [State.setFile]
    | ok token =>
      obtain ⟨-, a2, a3, a4, a5⟩ := writeCachedToken_frame env token s1 f
      obtain ⟨-, b2, b3, b4, b5⟩ := writeCachedToken_frame env token s1 g
      simp only [State.print]
      refine ⟨trivial, ?_, ?_, ?_, ?_⟩
      · rw [a3, b3]
      · rw [a4, b4]
      · rw [a2, b2]
      · intro _ hc
        rw [a5 hc, b5 hc]

theorem getCredentialsFromKeyring_trace (s : State) :
    ∃ pre, (getCredentialsFromKeyring s).2 = { s with trace := s.trace ++ pre } ∧
      authCalls pre = [] ∧ prompts pre = [] ∧ cacheWrites pre = [] := by
  obtain ⟨f, ⟨a, b, c⟩, tr, out⟩ := s
  cases a with
  | none =>
    exact ⟨[.keyringGet .username], by
      simp [getCredentialsFromKeyring, keyringGet, State.log, Keyring.get, authCalls, prompts,
        cacheWrites]⟩
  | some u =>
    cases b with
    | none =>
      exact ⟨[.keyringGet .username, .keyringGet .password], by
        simp [getCredentialsFromKeyring, keyringGet, State.log, Keyring.get, authCalls, prompts,
          cacheWrites]⟩
    | some p =>
      cases c with
      | none =>
        exact ⟨[.keyringGet .username, .keyringGet .password, .keyringGet .url], by
          simp [getCredentialsFromKeyring, keyringGet, State.log, Keyring.get, authCalls,
            prompts, cacheWrites]⟩
      | some url =>
        exact ⟨[.keyringGet .username, .keyringGet .password, .keyringGet .url], by
          simp [getCredentialsFromKeyring, keyringGet, State.log, Keyring.get, authCalls,
            prompts, cacheWrites]⟩

theorem getBearerToken_trace (env : Env) (u p url : String) (s : State) :
    ∃ post, (getBearerToken env u p url s).2 =
        { s with trace := s.trace ++ [.authCall u p url] ++ post } ∧
      authCalls post = [] ∧ prompts post = [] ∧ cacheWrites post = [] := by
  unfold getBearerToken
  simp only [State.log]
  by_cases h1 : url = ""
  · exact ⟨[], by simp [h1, authCalls, prompts, cacheWrites]⟩
  · by_cases h2 : env.newRequestFails (url ++ "/api/v1/auth/token") = true
    · exact ⟨[], by simp [h1, h2, authCalls, prompts, cacheWrites]⟩
    · refine ⟨[.httpPost (url ++ "/api/v1/auth/token") u p], ?_⟩
      simp only [h1, h2, if_false]
      cases env.httpDo (url ++ "/api/v1/auth/token") u p with
      | none => simp [authCalls, prompts, cacheWrites]
      | some a =>
        obtain ⟨code, status, body⟩ := a
        by_cases h3 : code = 200
        · cases hd : env.jsonDecode body <;> simp [h3, hd, authCalls, prompts, cacheWrites]
        · simp [h3, authCalls, prompts, cacheWrites]

theorem writeCachedToken_trace (env : Env) (r : TokenResponse) (s : State) :
    ∃ w, (writeCachedToken env r s).2.trace = s.trace ++ w ∧
      authCalls w = [] ∧ prompts w = [] := by
  unfold writeCachedToken
  simp only [State.log]
  cases env.createFails with
  | true => exact ⟨[.mkdirAll, .createFile], by simp [authCalls, prompts]⟩
  | false =>
    refine ⟨[.mkdirAll, .createFile, .writeFile (env.jsonEncode r)], ?_⟩
    cases env.writeFailsAfter <;> simp [authCalls, prompts]

/-- The credential resolution when the keyring read fails: the operator is
asked for all three fields and the three answers are handed to the keyring. -/
theorem resolveCredentials_of_error (env : Env) (s : State) (e : Err)
    (h : (getCredentialsFromKeyring s).1 = .error e) :
    resolveCredentials env s =
      (prompted env,
        (saveCredentialsToKeyring env (prompted env).1 (prompted env).2.1 (prompted env).2.2
          (promptCredentials env (getCredentialsFromKeyring s).2).2).2) := by
  unfold resolveCredentials
  cases hg : getCredentialsFromKeyring s with
  | mk r s1 =>
    rw [hg] at h
    cases r with
    | error e => simp [promptCredentials_eq]
    | ok c => cases h

/-- The credential resolution when the stored url is empty: as when the
keyring read fails. -/
theorem resolveCredentials_of_empty_url (env : Env) (s : State) (u p : String)
    (h : (getCredentialsFromKeyring s).1 = .ok (u, p, "")) :
    resolveCredentials env s =
      (prompted env,
        (saveCredentialsToKeyring env (prompted env).1 (prompted env).2.1 (prompted env).2.2
          (promptCredentials env (getCredentialsFromKeyring s).2).2).2) := by
  unfold resolveCredentials
  cases hg : getCredentialsFromKeyring s with
  | mk r s1 =>
    rw [hg] at h
    cases r with
    | error e => cases h
    | ok c =>
      obtain ⟨u1, p1, url1⟩ := c
      simp only [Except.ok.injEq, Prod.mk.injEq] at h
      simp [h.2.2, promptCredentials_eq]

/-! ## The claims -/

/-- C1: when `readCachedToken` accepts the cached record, the `token` command
returns `nil`, prints that record's token, and does nothing but the one read of
the cache file: no call of `getBearerToken`, no keyring read or write, no
prompt, no write of the cache file; the cache file and the keyring are the
same after the command as before it. -/
theorem tokenAction_cache_hit (env : Env) (s : State) (cached : TokenResponse)
    (h : (readCachedToken env s).1 = .ok cached) :
    (tokenAction env s).1 = none ∧
    (tokenAction env s).2.stdout = s.stdout ++
      [.validToken cached.Token, .expires ((env.parseRFC3339 cached.Expires).getD zeroTime)] ∧
    (tokenAction env s).2.trace = s.trace ++ [.readFile] ∧
    (tokenAction env s).2.cacheFile = s.cacheFile ∧
    (tokenAction env s).2.keyring = s.keyring := by
  unfold tokenAction
  rw [readCachedToken_eq, h]
  simp [State.log, State.print]

/-- C1 at a concrete input: the cache holds a record that expires in an hour. -/
theorem tokenAction_cache_hit_witness :
    (readCachedToken Example.envBefore Example.cached).1 = .ok Example.record ∧
    (tokenAction Example.envBefore Example.cached).1 = none ∧
    (tokenAction Example.envBefore Example.cached).2.stdout =
      [.validToken "abc123", .expires Example.expiry] ∧
    (tokenAction Example.envBefore Example.cached).2.trace = [.readFile] ∧
    (tokenAction Example.envBefore Example.cached).2.cacheFile = some Example.recordFile ∧
    (tokenAction Example.envBefore Example.cached).2.keyring = Keyring.empty :=
  have h : (readCachedToken Example.envBefore Example.cached).1 = .ok Example.record := by
    decide
  ⟨h, tokenAction_cache_hit Example.envBefore Example.cached Example.record h⟩

/-- C2, as the code has it: for a cache file that decodes to a token record,
`readCachedToken` returns that record if and only if its `expires` field parses
as an RFC 3339 timestamp and the current instant is not after it
(`now_utc <= expires_at`, the instant of expiry included); in every other case
it returns the error "token expired" and no record. -/
theorem readCachedToken_accepts_iff (env : Env) (s : State) (data : String)
    (token : TokenResponse) (hfile : s.cacheFile = some data)
    (hdec : env.jsonUnmarshal data = some token) :
    ((readCachedToken env s).1 = .ok token ↔
      ∃ expTime, env.parseRFC3339 token.Expires = some expTime ∧ env.now ≤ expTime) ∧
    ((¬ ∃ expTime, env.parseRFC3339 token.Expires = some expTime ∧ env.now ≤ expTime) →
      (readCachedToken env s).1 = .error .tokenExpired) ∧
    (∀ r, (readCachedToken env s).1 = .ok r → r = token) := by
  rw [readCachedToken_some env s data token hfile hdec]
  cases hp : env.parseRFC3339 token.Expires with
  | none => simp
  | some expTime =>
    by_cases hn : env.now > expTime
    · have : ¬ env.now ≤ expTime := not_le.mpr hn
      simp [hn, this]
    · have : env.now ≤ expTime := not_lt.mp hn
      simp only [hn, if_false]
      refine ⟨⟨fun _ => ⟨expTime, rfl, this⟩, fun _ => trivial⟩, ?_, ?_⟩
      · intro hc
        exact absurd ⟨expTime, rfl, this⟩ hc
      · intro r hr
        cases hr
        rfl

/-- C2 at a concrete input: a record that expires in an hour is returned. -/
theorem readCachedToken_accepts_iff_witness :
    ((readCachedToken Example.envBefore Example.cached).1 = .ok Example.record ↔
      ∃ expTime, Example.envBefore.parseRFC3339 Example.record.Expires = some expTime ∧
        Example.envBefore.now ≤ expTime) ∧
    ((¬ ∃ expTime, Example.envBefore.parseRFC3339 Example.record.Expires = some expTime ∧
        Example.envBefore.now ≤ expTime) →
      (readCachedToken Example.envBefore Example.cached).1 = .error .tokenExpired) ∧
    (∀ r, (readCachedToken Example.envBefore Example.cached).1 = .ok r →
      r = Example.record) :=
  readCachedToken_accepts_iff Example.envBefore Example.cached Example.recordFile
    Example.record (by decide) (by decide)

/-- C2 fails as stated: at the very instant of expiry (`now_utc = expires_at`)
the record is still returned, because `After` is strict. -/
theorem readCachedToken_accepts_at_expiry :
    Example.cached.cacheFile = some Example.recordFile ∧
    Example.envAtExpiry.jsonUnmarshal Example.recordFile = some Example.record ∧
    Example.envAtExpiry.parseRFC3339 Example.record.Expires = some Example.expiry ∧
    Example.envAtExpiry.now = Example.expiry ∧
    ¬ (Example.envAtExpiry.now < Example.expiry) ∧
    (readCachedToken Example.envAtExpiry Example.cached).1 = .ok Example.record := by
  decide

theorem readCachedToken_expired (env : Env) (s : State) (data : String) (token : TokenResponse)
    (expTime : Int) (hfile : s.cacheFile = some data)
    (hdec : env.jsonUnmarshal data = some token)
    (hparse : env.parseRFC3339 token.Expires = some expTime) (hexp : expTime < env.now) :
    (readCachedToken env s).1 = .error .tokenExpired := by
  rw [readCachedToken_some env s data token hfile hdec, hparse]
  simp [hexp]

/-- An expired cache against a missing one: from two states that differ only
in the cache file, one holding a well-formed record that has expired and the
other no file,
the `token` command returns the same result, makes the same calls in the same
order (keyring reads, prompts, keyring writes, authentication), prints the
same, and leaves the same keyring; when it succeeds and `os.Create` of the
cache file does not fail, it leaves the same cache file. What it prints as
token is the token of the authentication call, never the cached one. -/
theorem tokenAction_expired_like_missing (env : Env) (s : State) (data : String)
    (token : TokenResponse) (expTime : Int)
    (hdec : env.jsonUnmarshal data = some token)
    (hparse : env.parseRFC3339 token.Expires = some expTime) (hexp : expTime < env.now) :
    (tokenAction env (s.setFile (some data))).1 = (tokenAction env (s.setFile none)).1 ∧
    (tokenAction env (s.setFile (some data))).2.trace =
      (tokenAction env (s.setFile none)).2.trace ∧
    (tokenAction env (s.setFile (some data))).2.stdout =
      (tokenAction env (s.setFile none)).2.stdout ∧
    (tokenAction env (s.setFile (some data))).2.keyring =
      (tokenAction env (s.setFile none)).2.keyring ∧
    ((tokenAction env (s.setFile (some data))).1 = none → env.createFails = false →
      (tokenAction env (s.setFile (some data))).2.cacheFile =
        (tokenAction env (s.setFile none)).2.cacheFile) ∧
    (∀ t, Output.validToken t ∈ (tokenAction env (s.setFile (some data))).2.stdout →
      Output.validToken t ∈ s.stdout) := by
  have h1 : (readCachedToken env (s.setFile (some data))).1 = .error .tokenExpired :=
    readCachedToken_expired env _ data token expTime rfl hdec hparse hexp
  have h2 : (readCachedToken env (s.setFile none)).1 = .error .notExist :=
    readCachedToken_none env _ rfl
  obtain ⟨a1, a2, a3, a4, a5⟩ := tokenAction_miss_frame env s (some data) none _ _ h1 h2
  refine ⟨a1, a2, a3, a4, a5, ?_⟩
  intro t ht
  rw [tokenAction_miss env _ _ h1] at ht
  have hr := resolveCredentials_out env ((s.setFile (some data)).log .readFile)
  have hb := getBearerToken_state env
    (resolveCredentials env ((s.setFile (some data)).log .readFile)).1.1
    (resolveCredentials env ((s.setFile (some data)).log .readFile)).1.2.1
    (resolveCredentials env ((s.setFile (some data)).log .readFile)).1.2.2
    (resolveCredentials env ((s.setFile (some data)).log .readFile)).2
  revert ht hb
  cases (getBearerToken env
    (resolveCredentials env ((s.setFile (some data)).log .readFile)).1.1
    (resolveCredentials env ((s.setFile (some data)).log .readFile)).1.2.1
    (resolveCredentials env ((s.setFile (some data)).log .readFile)).1.2.2
    (resolveCredentials env ((s.setFile (some data)).log .readFile)).2) with
  | mk r s1 =>
    intro ht hb
    obtain ⟨-, -, hb3, -⟩ := hb
    simp only at hb3
    cases r with
    | error err =>
      simp only at ht
      rw [hb3] at ht
      exact hr t ht
    | ok tok =>
      simp only [State.print, List.mem_append, List.mem_singleton] at ht
      rw [(writeCachedToken_state env tok s1).2.1, hb3] at ht
      rcases ht with (ht | ht) | ht
      · exact hr t ht
      · cases ht
      · cases ht

/-- An expired cache against a missing one at a concrete input: the expired
`record` in the cache, the account in the keyring, the server up. -/
theorem tokenAction_expired_like_missing_witness :
    (tokenAction Example.envAfter (Example.missingStored.setFile (some Example.recordFile))).1 =
      (tokenAction Example.envAfter (Example.missingStored.setFile none)).1 ∧
    (tokenAction Example.envAfter (Example.missingStored.setFile (some Example.recordFile))).2.trace =
      (tokenAction Example.envAfter (Example.missingStored.setFile none)).2.trace ∧
    (tokenAction Example.envAfter (Example.missingStored.setFile (some Example.recordFile))).2.stdout =
      (tokenAction Example.envAfter (Example.missingStored.setFile none)).2.stdout ∧
    (tokenAction Example.envAfter (Example.missingStored.setFile (some Example.recordFile))).2.keyring =
      (tokenAction Example.envAfter (Example.missingStored.setFile none)).2.keyring ∧
    ((tokenAction Example.envAfter (Example.missingStored.setFile (some Example.recordFile))).1 = none →
      Example.envAfter.createFails = false →
      (tokenAction Example.envAfter
          (Example.missingStored.setFile (some Example.recordFile))).2.cacheFile =
        (tokenAction Example.envAfter (Example.missingStored.setFile none)).2.cacheFile) ∧
    (∀ t, Output.validToken t ∈ (tokenAction Example.envAfter
        (Example.missingStored.setFile (some Example.recordFile))).2.stdout →
      Output.validToken t ∈ Example.missingStored.stdout) :=
  tokenAction_expired_like_missing Example.envAfter Example.missingStored Example.recordFile
    Example.record Example.expiry (by decide) (by decide) (by decide)

/-- C3 on the code: the `token` command drops the result of
`writeCachedToken`. When `os.Create` fails, the command still returns `nil`
from both states, yet the state that held the expired record keeps it while
the state without a cache file ends without one: on success the two runs do
not leave the same cache file, and the expired record is not overwritten. -/
theorem tokenAction_expired_not_overwritten :
    Example.envCreateFails.jsonUnmarshal Example.recordFile = some Example.record ∧
    Example.envCreateFails.parseRFC3339 Example.record.Expires = some Example.expiry ∧
    Example.expiry < Example.envCreateFails.now ∧
    Example.expiredStored = Example.missingStored.setFile (some Example.recordFile) ∧
    (tokenAction Example.envCreateFails Example.expiredStored).1 = none ∧
    (tokenAction Example.envCreateFails Example.missingStored).1 = none ∧
    (tokenAction Example.envCreateFails Example.expiredStored).2.cacheFile =
      some Example.recordFile ∧
    (tokenAction Example.envCreateFails Example.missingStored).2.cacheFile = none := by
  decide

/-- The `token` command with usable stored credentials: after a cache miss,
with all three credentials in the keyring and a stored url that is not empty,
the command does not prompt, calls `getBearerToken` exactly once, with the
stored user name, password and url, and leaves the keyring as it was, whatever
the authentication call and the write of the cache file return. -/
theorem tokenAction_stored_used (env : Env) (s : State) (e : Err) (u p url : String)
    (hmiss : (readCachedToken env s).1 = .error e)
    (hu : s.keyring.get .username = some u) (hp : s.keyring.get .password = some p)
    (hurl : s.keyring.get .url = some url) (hne : url ≠ "") :
    prompts (tokenAction env s).2.trace = prompts s.trace ∧
    authCalls (tokenAction env s).2.trace = authCalls s.trace ++ [(u, p, url)] ∧
    (tokenAction env s).2.keyring = s.keyring := by
  have hres : resolveCredentials env (s.log .readFile) =
      ((u, p, url), { s.log .readFile with
        trace := (s.log .readFile).trace ++
          [.keyringGet .username, .keyringGet .password, .keyringGet .url] }) := by
    unfold resolveCredentials
    rw [getCredentialsFromKeyring_ok (s.log .readFile) u p url hu hp hurl]
    simp [hne]
  rw [tokenAction_miss env s e hmiss, hres]
  simp only []
  obtain ⟨post, b1, b2, b3, -⟩ := getBearerToken_trace env u p url { s.log .readFile with
        trace := (s.log .readFile).trace ++
          [.keyringGet .username, .keyringGet .password, .keyringGet .url] }
  revert b1
  cases (getBearerToken env u p url { s.log .readFile with
        trace := (s.log .readFile).trace ++
          [.keyringGet .username, .keyringGet .password, .keyringGet .url] }) with
  | mk res s1 =>
    intro b1
    simp only at b1
    subst b1
    cases res with
    | error err =>
      refine ⟨?_, ?_, rfl⟩
      · simp only [prompts_append, b3, List.append_nil]
        simp [State.log, prompts]
      · simp only [authCalls_append, b2, List.append_nil]
        simp [State.log, authCalls]
    | ok tok =>
      obtain ⟨w, w1, w2, w3⟩ := writeCachedToken_trace env tok
        { s.log .readFile with
          trace := (s.log .readFile).trace ++
            [.keyringGet .username, .keyringGet .password, .keyringGet .url] ++
            [.authCall u p url] ++ post }
      obtain ⟨k1, -, -, -⟩ := writeCachedToken_state env tok
        { s.log .readFile with
          trace := (s.log .readFile).trace ++
            [.keyringGet .username, .keyringGet .password, .keyringGet .url] ++
            [.authCall u p url] ++ post }
      simp only [State.print]
      refine ⟨?_, ?_, ?_⟩
      · rw [w1]
        simp only [prompts_append, b3, w3, List.append_nil]
        simp [State.log, prompts]
      · rw [w1]
        simp only [authCalls_append, b2, w2, List.append_nil]
        simp [State.log, authCalls]
      · rw [k1]
        rfl

/-- C4, as the code has it: after a cache miss, with all three credentials in
the keyring and a stored url that is not empty, if the authentication call
returns a record `r`, then the `token` command does not prompt, calls
`getBearerToken` exactly once, with the stored user name, password and url,
and leaves the keyring unchanged; if in addition the write of the cache file
succeeds, the command returns `nil` and prints the token of `r`, its calls are
the read of the cache file, the three keyring reads, the authentication with
its one request and the write, and the cache file holds exactly the encoding
of `r` in place of what was there. -/
theorem tokenAction_stored_credentials (env : Env) (s : State) (e : Err) (u p url : String)
    (r : TokenResponse) (hmiss : (readCachedToken env s).1 = .error e)
    (hu : s.keyring.get .username = some u) (hp : s.keyring.get .password = some p)
    (hurl : s.keyring.get .url = some url) (hne : url ≠ "")
    (hauth : authOutcome env u p url = .ok r) :
    (prompts (tokenAction env s).2.trace = prompts s.trace ∧
      authCalls (tokenAction env s).2.trace = authCalls s.trace ++ [(u, p, url)] ∧
      (tokenAction env s).2.keyring = s.keyring) ∧
    (env.createFails = false → env.writeFailsAfter = none →
      (tokenAction env s).1 = none ∧
      (tokenAction env s).2.stdout = s.stdout ++
        [.newToken r.Token, .expires ((env.parseRFC3339 r.Expires).getD zeroTime)] ∧
      (tokenAction env s).2.trace = s.trace ++
        [.readFile, .keyringGet .username, .keyringGet .password, .keyringGet .url,
          .authCall u p url, .httpPost (url ++ "/api/v1/auth/token") u p,
          .mkdirAll, .createFile, .writeFile (env.jsonEncode r)] ∧
      (tokenAction env s).2.cacheFile = some (env.jsonEncode r)) := by
  refine ⟨tokenAction_stored_used env s e u p url hmiss hu hp hurl hne, ?_⟩
  intro hc hw
  have hres : resolveCredentials env (s.log .readFile) =
      ((u, p, url), { s.log .readFile with
        trace := (s.log .readFile).trace ++
          [.keyringGet .username, .keyringGet .password, .keyringGet .url] }) := by
    unfold resolveCredentials
    rw [getCredentialsFromKeyring_ok (s.log .readFile) u p url hu hp hurl]
    simp [hne]
  rw [tokenAction_miss env s e hmiss, hres]
  simp only []
  have h1 := getBearerToken_fst env u p url { s.log .readFile with
        trace := (s.log .readFile).trace ++
          [.keyringGet .username, .keyringGet .password, .keyringGet .url] }
  have h2 := getBearerToken_ok_trace env u p url { s.log .readFile with
        trace := (s.log .readFile).trace ++
          [.keyringGet .username, .keyringGet .password, .keyringGet .url] } r hauth
  have h3 := getBearerToken_state env u p url { s.log .readFile with
        trace := (s.log .readFile).trace ++
          [.keyringGet .username, .keyringGet .password, .keyringGet .url] }
  rw [hauth] at h1
  revert h1 h2 h3
  cases (getBearerToken env u p url { s.log .readFile with
        trace := (s.log .readFile).trace ++
          [.keyringGet .username, .keyringGet .password, .keyringGet .url] }) with
  | mk res s1 =>
    intro h1 h2 h3
    simp only at h1 h2 h3
    obtain ⟨h31, h32, h33, -⟩ := h3
    subst h1
    simp only [writeCachedToken_ok env r s1 hc hw, State.print, h2, h33, State.log,
      List.append_assoc, List.cons_append, List.nil_append]
    exact ⟨trivial, trivial, trivial, trivial⟩

/-- C4 at a concrete input: no cache file, the account in the keyring, the
server up and no write failing. -/
theorem tokenAction_stored_credentials_witness :
    (prompts (tokenAction Example.envAfter Example.missingStored).2.trace =
        prompts Example.missingStored.trace ∧
      authCalls (tokenAction Example.envAfter Example.missingStored).2.trace =
        authCalls Example.missingStored.trace ++
          [("admin", "secret", "https://mdm.example.com")] ∧
      (tokenAction Example.envAfter Example.missingStored).2.keyring =
        Example.missingStored.keyring) ∧
    (tokenAction Example.envAfter Example.missingStored).1 = none ∧
    (tokenAction Example.envAfter Example.missingStored).2.stdout =
      Example.missingStored.stdout ++
      [.newToken Example.fresh.Token,
        .expires ((Example.envAfter.parseRFC3339 Example.fresh.Expires).getD zeroTime)] ∧
    (tokenAction Example.envAfter Example.missingStored).2.trace = Example.missingStored.trace ++
      [.readFile, .keyringGet .username, .keyringGet .password, .keyringGet .url,
        .authCall "admin" "secret" "https://mdm.example.com",
        .httpPost ("https://mdm.example.com" ++ "/api/v1/auth/token") "admin" "secret",
        .mkdirAll, .createFile, .writeFile (Example.envAfter.jsonEncode Example.fresh)] ∧
    (tokenAction Example.envAfter Example.missingStored).2.cacheFile =
      some (Example.envAfter.jsonEncode Example.fresh) :=
  have h := tokenAction_stored_credentials Example.envAfter Example.missingStored .notExist
    "admin" "secret" "https://mdm.example.com" Example.fresh
    (by decide) (by decide) (by decide) (by decide) (by decide) (by decide)
  ⟨h.1, h.2 (by decide) (by decide)⟩

/-- C4 fails as stated: the authentication call returns `fresh` and the
command returns `nil` and prints its token, but `os.Create` fails and the
cache file does not hold the record afterwards. -/
theorem tokenAction_cache_not_written :
    (readCachedToken Example.envCreateFails Example.missingStored).1 = .error .notExist ∧
    Example.missingStored.keyring = Example.stored ∧
    authOutcome Example.envCreateFails "admin" "secret" "https://mdm.example.com" =
      .ok Example.fresh ∧
    (tokenAction Example.envCreateFails Example.missingStored).1 = none ∧
    tokensPrinted (tokenAction Example.envCreateFails Example.missingStored).2.stdout =
      ["new456"] ∧
    authCalls (tokenAction Example.envCreateFails Example.missingStored).2.trace =
      [("admin", "secret", "https://mdm.example.com")] ∧
    (tokenAction Example.envCreateFails Example.missingStored).2.cacheFile = none ∧
    (tokenAction Example.envCreateFails Example.missingStored).2.cacheFile ≠
      some (Example.envCreateFails.jsonEncode Example.fresh) := by
  decide

/-- C5: after a cache miss, if the authentication call for the resolved
credentials fails with an error, whatever its kind (empty url, rejected
request, transport failure, status other than 200, malformed body), the
`token` command returns that very error, has called `getBearerToken` exactly
once, prints no token, makes no call that writes the cache file, and leaves
the cache file as it was. -/
theorem tokenAction_auth_failure (env : Env) (s : State) (e0 e : Err)
    (hmiss : (readCachedToken env s).1 = .error e0)
    (hauth : authOutcome env (resolveCredentials env (s.log .readFile)).1.1
      (resolveCredentials env (s.log .readFile)).1.2.1
      (resolveCredentials env (s.log .readFile)).1.2.2 = .error e) :
    (tokenAction env s).1 = some e ∧
    authCalls (tokenAction env s).2.trace =
      authCalls s.trace ++ [(resolveCredentials env (s.log .readFile)).1] ∧
    tokensPrinted (tokenAction env s).2.stdout = tokensPrinted s.stdout ∧
    cacheWrites (tokenAction env s).2.trace = cacheWrites s.trace ∧
    (tokenAction env s).2.cacheFile = s.cacheFile := by
  obtain ⟨r1, r2, r3, r4⟩ := resolveCredentials_state env (s.log .readFile)
  have h1 := getBearerToken_fst env (resolveCredentials env (s.log .readFile)).1.1
    (resolveCredentials env (s.log .readFile)).1.2.1
    (resolveCredentials env (s.log .readFile)).1.2.2 (resolveCredentials env (s.log .readFile)).2
  obtain ⟨post, h2, h3, -, h5⟩ :=
    getBearerToken_trace env (resolveCredentials env (s.log .readFile)).1.1
      (resolveCredentials env (s.log .readFile)).1.2.1
      (resolveCredentials env (s.log .readFile)).1.2.2
      (resolveCredentials env (s.log .readFile)).2
  rw [hauth] at h1
  rw [tokenAction_miss env s e0 hmiss]
  revert h1 h2
  cases (getBearerToken env (resolveCredentials env (s.log .readFile)).1.1
    (resolveCredentials env (s.log .readFile)).1.2.1
    (resolveCredentials env (s.log .readFile)).1.2.2
    (resolveCredentials env (s.log .readFile)).2) with
  | mk res s1 =>
    intro h1 h2
    simp only at h1 h2
    subst h1
    subst h2
    simp only [authCalls_append, cacheWrites_append, r1, r2, r3, r4, h3, h5, List.append_nil]
    simp [State.log, authCalls, cacheWrites]

/-- C5 at a concrete input: the cache holds the expired `record`, the
keyring a wrong password, and the server answers 401. -/
theorem tokenAction_auth_failure_witness :
    (tokenAction Example.envAfter
      (State.init (some Example.recordFile) ⟨some "admin", some "wrong", some "https://mdm.example.com"⟩)).1 =
      some (.authFailed "401 Unauthorized") ∧
    authCalls (tokenAction Example.envAfter
      (State.init (some Example.recordFile)
        ⟨some "admin", some "wrong", some "https://mdm.example.com"⟩)).2.trace =
      authCalls (State.init (some Example.recordFile)
        ⟨some "admin", some "wrong", some "https://mdm.example.com"⟩).trace ++
      [(resolveCredentials Example.envAfter
        ((State.init (some Example.recordFile)
          ⟨some "admin", some "wrong", some "https://mdm.example.com"⟩).log .readFile)).1] ∧
    tokensPrinted (tokenAction Example.envAfter
      (State.init (some Example.recordFile)
        ⟨some "admin", some "wrong", some "https://mdm.example.com"⟩)).2.stdout =
      tokensPrinted (State.init (some Example.recordFile)
        ⟨some "admin", some "wrong", some "https://mdm.example.com"⟩).stdout ∧
    cacheWrites (tokenAction Example.envAfter
      (State.init (some Example.recordFile)
        ⟨some "admin", some "wrong", some "https://mdm.example.com"⟩)).2.trace =
      cacheWrites (State.init (some Example.recordFile)
        ⟨some "admin", some "wrong", some "https://mdm.example.com"⟩).trace ∧
    (tokenAction Example.envAfter
      (State.init (some Example.recordFile)
        ⟨some "admin", some "wrong", some "https://mdm.example.com"⟩)).2.cacheFile =
      (State.init (some Example.recordFile)
        ⟨some "admin", some "wrong", some "https://mdm.example.com"⟩).cacheFile :=
  tokenAction_auth_failure Example.envAfter
    (State.init (some Example.recordFile)
      ⟨some "admin", some "wrong", some "https://mdm.example.com"⟩)
    .tokenExpired (.authFailed "401 Unauthorized") (by decide) (by decide)

/-- The `token` command with an empty stored url: after a cache miss, when
the credential set read from the keyring has the empty string as url, the
operator is asked for all three fields and the one call of `getBearerToken`
gets the prompted credentials. -/
theorem tokenAction_empty_url_prompted (env : Env) (s : State) (e0 : Err) (u p : String)
    (hmiss : (readCachedToken env s).1 = .error e0)
    (hu : s.keyring.get .username = some u) (hp : s.keyring.get .password = some p)
    (hurl : s.keyring.get .url = some "") :
    prompts (tokenAction env s).2.trace = prompts s.trace ++ [.username, .password, .url] ∧
    authCalls (tokenAction env s).2.trace = authCalls s.trace ++ [prompted env] := by
  have hg : (getCredentialsFromKeyring (s.log .readFile)).1 = .ok (u, p, "") := by
    rw [getCredentialsFromKeyring_ok (s.log .readFile) u p "" hu hp hurl]
  have hres := resolveCredentials_of_empty_url env (s.log .readFile) u p hg
  obtain ⟨pre, g1, g2, g3, -⟩ := getCredentialsFromKeyring_trace (s.log .readFile)
  obtain ⟨-, -, k3, -, k5⟩ := saveCredentialsToKeyring_cacheFile env (prompted env).1
    (prompted env).2.1 (prompted env).2.2
    (promptCredentials env (getCredentialsFromKeyring (s.log .readFile)).2).2
  rw [tokenAction_miss env s e0 hmiss, hres]
  simp only []
  obtain ⟨post, b1, b2, b3, -⟩ := getBearerToken_trace env (prompted env).1
    (prompted env).2.1 (prompted env).2.2
    (saveCredentialsToKeyring env (prompted env).1 (prompted env).2.1 (prompted env).2.2
      (promptCredentials env (getCredentialsFromKeyring (s.log .readFile)).2).2).2
  revert b1
  cases (getBearerToken env (prompted env).1 (prompted env).2.1 (prompted env).2.2
    (saveCredentialsToKeyring env (prompted env).1 (prompted env).2.1 (prompted env).2.2
      (promptCredentials env (getCredentialsFromKeyring (s.log .readFile)).2).2).2) with
  | mk res s1 =>
    intro b1
    simp only at b1
    subst b1
    have hfin : ∀ x : Option Err × State, ∀ w, x.2.trace =
        (saveCredentialsToKeyring env (prompted env).1 (prompted env).2.1 (prompted env).2.2
          (promptCredentials env (getCredentialsFromKeyring (s.log .readFile)).2).2).2.trace ++
          [.authCall (prompted env).1 (prompted env).2.1 (prompted env).2.2] ++ post ++ w →
        authCalls w = [] → prompts w = [] →
        prompts x.2.trace = prompts s.trace ++ [.username, .password, .url] ∧
        authCalls x.2.trace = authCalls s.trace ++ [prompted env] := by
      intro x w hx hw1 hw2
      rw [hx]
      simp only [authCalls_append, prompts_append]
      rw [k3, k5, promptCredentials_eq, g1]
      simp only [authCalls_append, prompts_append, hw1, hw2, b2, b3, g2, g3, List.append_nil]
      simp [State.log, authCalls, prompts]
    cases res with
    | error err => exact hfin _ [] (by simp) rfl rfl
    | ok tok =>
      obtain ⟨w, w1, w2, w3⟩ := writeCachedToken_trace env tok
        { (saveCredentialsToKeyring env (prompted env).1 (prompted env).2.1 (prompted env).2.2
            (promptCredentials env (getCredentialsFromKeyring (s.log .readFile)).2).2).2 with
          trace := (saveCredentialsToKeyring env (prompted env).1 (prompted env).2.1
            (prompted env).2.2
            (promptCredentials env (getCredentialsFromKeyring (s.log .readFile)).2).2).2.trace ++
            [.authCall (prompted env).1 (prompted env).2.1 (prompted env).2.2] ++ post }
      exact hfin _ w (by simpa [State.print] using w1) w2 w3

/-- C6, as the code has it: after a cache miss, the `token` command tests
only the url of the credential set read from the keyring. When the stored url
is the empty string, it treats the credentials as absent: it prompts the
operator for all three fields, and the one call of `getBearerToken` gets the
prompted credentials, not the stored set. When the stored url is not empty,
the stored set is used as it is, also with an empty user name or an empty
password: the operator is not prompted and the one call of `getBearerToken`
gets the stored user name, password and url. -/
theorem tokenAction_url_guard (env : Env) (s : State) (e0 : Err) (u p url : String)
    (hmiss : (readCachedToken env s).1 = .error e0)
    (hu : s.keyring.get .username = some u) (hp : s.keyring.get .password = some p)
    (hurl : s.keyring.get .url = some url) :
    (url = "" →
      prompts (tokenAction env s).2.trace = prompts s.trace ++ [.username, .password, .url] ∧
      authCalls (tokenAction env s).2.trace = authCalls s.trace ++ [prompted env]) ∧
    (url ≠ "" →
      prompts (tokenAction env s).2.trace = prompts s.trace ∧
      authCalls (tokenAction env s).2.trace = authCalls s.trace ++ [(u, p, url)]) := by
  constructor
  · intro h
    subst h
    exact tokenAction_empty_url_prompted env s e0 u p hmiss hu hp hurl
  · intro h
    obtain ⟨h1, h2, -⟩ := tokenAction_stored_used env s e0 u p url hmiss hu hp hurl h
    exact ⟨h1, h2⟩

/-- C6 at concrete inputs: a stored url that is empty, where the operator
types the credentials of the account, and a stored password that is empty
beside a url that is not. -/
theorem tokenAction_url_guard_witness :
    (prompts (tokenAction Example.envAfter Example.emptyUrl).2.trace =
        prompts Example.emptyUrl.trace ++ [.username, .password, .url] ∧
      authCalls (tokenAction Example.envAfter Example.emptyUrl).2.trace =
        authCalls Example.emptyUrl.trace ++ [prompted Example.envAfter]) ∧
    (prompts (tokenAction Example.envAfter Example.emptyPassword).2.trace =
        prompts Example.emptyPassword.trace ∧
      authCalls (tokenAction Example.envAfter Example.emptyPassword).2.trace =
        authCalls Example.emptyPassword.trace ++ [("admin", "", "https://mdm.example.com")]) :=
  ⟨(tokenAction_url_guard Example.envAfter Example.emptyUrl .notExist "admin" "secret" ""
      (by decide) (by decide) (by decide) (by decide)).1 rfl,
    (tokenAction_url_guard Example.envAfter Example.emptyPassword .notExist "admin" ""
      "https://mdm.example.com" (by decide) (by decide) (by decide) (by decide)).2
      (by decide)⟩

/-- C6 fails as stated: a stored credential set whose user name is the empty
string, and one whose password is the empty string, each with a url that is
not empty, is read from the keyring, the operator is not prompted, and that
very set is passed to `getBearerToken`. -/
theorem tokenAction_empty_username_not_prompted :
    (getCredentialsFromKeyring Example.emptyUsername).1 =
      .ok ("", "secret", "https://mdm.example.com") ∧
    prompts (tokenAction Example.envAfter Example.emptyUsername).2.trace = [] ∧
    authCalls (tokenAction Example.envAfter Example.emptyUsername).2.trace =
      [("", "secret", "https://mdm.example.com")] ∧
    (getCredentialsFromKeyring Example.emptyPassword).1 =
      .ok ("admin", "", "https://mdm.example.com") ∧
    prompts (tokenAction Example.envAfter Example.emptyPassword).2.trace = [] ∧
    authCalls (tokenAction Example.envAfter Example.emptyPassword).2.trace =
      [("admin", "", "https://mdm.example.com")] := by
  decide

/-- C7: after a cache miss, when at least one of the three keys is absent
from the keyring and the keyring writes succeed, the `token` command prompts
for all three fields, hands the three prompted values to the keyring, and only
then makes its one call of `getBearerToken`, with the prompted values; after
the command the keyring holds exactly the three prompted values, whether the
authentication succeeded or failed. -/
theorem tokenAction_missing_key_prompts (env : Env) (s : State) (e0 : Err) (k : Key)
    (hmiss : (readCachedToken env s).1 = .error e0) (hk : s.keyring.get k = none)
    (hset : ∀ k, env.keyringSetFails k = false) :
    (∃ pre post,
      (tokenAction env s).2.trace = s.trace ++ pre ++
        [.prompt .username, .prompt .password, .prompt .url,
          .keyringSet .username (prompted env).1, .keyringSet .password (prompted env).2.1,
          .keyringSet .url (prompted env).2.2,
          .authCall (prompted env).1 (prompted env).2.1 (prompted env).2.2] ++ post ∧
      authCalls pre = [] ∧ prompts pre = [] ∧ authCalls post = [] ∧ prompts post = []) ∧
    (tokenAction env s).2.keyring =
      ⟨some (prompted env).1, some (prompted env).2.1, some (prompted env).2.2⟩ := by
  have hg : (getCredentialsFromKeyring (s.log .readFile)).1 = .error .keyringNotFound :=
    getCredentialsFromKeyring_missing (s.log .readFile) k hk
  have hres := resolveCredentials_of_error env (s.log .readFile) _ hg
  obtain ⟨pre, g1, g2, g3, -⟩ := getCredentialsFromKeyring_trace (s.log .readFile)
  rw [promptCredentials_eq, saveCredentialsToKeyring_ok env _ _ _ _ hset, g1] at hres
  simp only [State.log] at hres
  have hl : s.log .readFile = { s with trace := s.trace ++ [.readFile] } := rfl
  rw [tokenAction_miss env s e0 hmiss, hl, hres]
  simp only []
  obtain ⟨post, b1, b2, b3, -⟩ := getBearerToken_trace env (prompted env).1
    (prompted env).2.1 (prompted env).2.2
    { cacheFile := s.cacheFile,
      keyring := ⟨some (prompted env).1, some (prompted env).2.1, some (prompted env).2.2⟩,
      trace := s.trace ++ [.readFile] ++ pre ++ [.prompt .username, .prompt .password,
          .prompt .url] ++
        [.keyringSet .username (prompted env).1, .keyringSet .password (prompted env).2.1,
          .keyringSet .url (prompted env).2.2],
      stdout := s.stdout ++ [.promptText .username, .promptText .password, .newline,
          .promptText .url] }
  revert b1
  cases (getBearerToken env (prompted env).1 (prompted env).2.1 (prompted env).2.2
    { cacheFile := s.cacheFile,
      keyring := ⟨some (prompted env).1, some (prompted env).2.1, some (prompted env).2.2⟩,
      trace := s.trace ++ [.readFile] ++ pre ++ [.prompt .username, .prompt .password,
          .prompt .url] ++
        [.keyringSet .username (prompted env).1, .keyringSet .password (prompted env).2.1,
          .keyringSet .url (prompted env).2.2],
      stdout := s.stdout ++ [.promptText .username, .promptText .password, .newline,
          .promptText .url] }) with
  | mk res s1 =>
    intro b1
    simp only at b1
    subst b1
    cases res with
    | error err =>
      refine ⟨⟨.readFile :: pre, post, ?_, ?_, ?_, b2, b3⟩, rfl⟩
      · simp
      · simpa [authCalls] using g2
      · simpa [prompts] using g3
    | ok tok =>
      obtain ⟨w, w1, w2, w3⟩ := writeCachedToken_trace env tok
        { cacheFile := s.cacheFile,
          keyring := ⟨some (prompted env).1, some (prompted env).2.1, some (prompted env).2.2⟩,
          trace := s.trace ++ [.readFile] ++ pre ++ [.prompt .username, .prompt .password,
              .prompt .url] ++
            [.keyringSet .username (prompted env).1, .keyringSet .password (prompted env).2.1,
              .keyringSet .url (prompted env).2.2] ++
            [.authCall (prompted env).1 (prompted env).2.1 (prompted env).2.2] ++ post,
          stdout := s.stdout ++ [.promptText .username, .promptText .password, .newline,
              .promptText .url] }
      refine ⟨⟨.readFile :: pre, post ++ w, ?_, ?_, ?_, ?_, ?_⟩, ?_⟩
      · simp only [State.print, w1]
        simp
      · simpa [authCalls] using g2
      · simpa [prompts] using g3
      · simp [authCalls_append, b2, w2]
      · simp [prompts_append, b3, w3]
      · simp only [State.print]
        exact (writeCachedToken_state env tok _).1

/-- C7 at a concrete input: the keyring lacks the url, the operator types the
credentials of the account. -/
theorem tokenAction_missing_key_prompts_witness :
    (∃ pre post,
      (tokenAction Example.envAfter Example.missingUrl).2.trace =
        Example.missingUrl.trace ++ pre ++
        [.prompt .username, .prompt .password, .prompt .url,
          .keyringSet .username (prompted Example.envAfter).1,
          .keyringSet .password (prompted Example.envAfter).2.1,
          .keyringSet .url (prompted Example.envAfter).2.2,
          .authCall (prompted Example.envAfter).1 (prompted Example.envAfter).2.1
            (prompted Example.envAfter).2.2] ++ post ∧
      authCalls pre = [] ∧ prompts pre = [] ∧ authCalls post = [] ∧ prompts post = []) ∧
    (tokenAction Example.envAfter Example.missingUrl).2.keyring =
      ⟨some (prompted Example.envAfter).1, some (prompted Example.envAfter).2.1,
        some (prompted Example.envAfter).2.2⟩ :=
  tokenAction_missing_key_prompts Example.envAfter Example.missingUrl .notExist .url
    (by decide) (by decide) (fun k => by cases k <;> rfl)

/-- What `resetCredentials` does from any state: afterwards the cache file
and the three keys are absent, the result is `nil` exactly when there was a
cache file, and a second call right after it always returns the error of
`os.Remove`. -/
theorem resetCredentials_effect (s : State) :
    (resetCredentials s).2.cacheFile = none ∧
    (resetCredentials s).2.keyring = Keyring.empty ∧
    ((resetCredentials s).1 = none ↔ s.cacheFile ≠ none) ∧
    (resetCredentials (resetCredentials s).2).1 = some .notExist := by
  obtain ⟨f, ⟨a, b, c⟩, tr, out⟩ := s
  cases f <;> cases a <;> cases b <;> cases c <;>
    simp [resetCredentials, keyringDelete, State.log, Keyring.get, Keyring.put, Keyring.empty]

/-- C8 on the code: `resetCredentials` returns the error of `os.Remove` when
there is no cache file. On the blank state the first call already fails; on a
state with a cache file the first call succeeds and the second fails. -/
theorem resetCredentials_second_call_fails :
    (resetCredentials Example.blank).1 = some .notExist ∧
    (resetCredentials Example.expiredStored).1 = none ∧
    (resetCredentials (resetCredentials Example.expiredStored).2).1 = some .notExist ∧
    exitCode (resetAction Example.blank).1 = 1 := by
  decide

/-- C9: for a record `r` that the JSON codec reads back from its own
encoding, whose `expires` parses as an RFC 3339 timestamp, and a current
instant that is not after that timestamp, if `writeCachedToken r` succeeds
then the `readCachedToken` that follows returns `r` itself. -/
theorem cache_round_trip (env : Env) (s : State) (r : TokenResponse) (expTime : Int)
    (hcodec : env.jsonUnmarshal (env.jsonEncode r) = some r)
    (hparse : env.parseRFC3339 r.Expires = some expTime) (hnow : env.now ≤ expTime)
    (hwrite : (writeCachedToken env r s).1 = none) :
    (readCachedToken env (writeCachedToken env r s).2).1 = .ok r := by
  obtain ⟨hc, hw⟩ := writeCachedToken_success env r s hwrite
  rw [writeCachedToken_ok env r s hc hw]
  rw [readCachedToken_some env _ (env.jsonEncode r) r rfl hcodec, hparse]
  simp [not_lt.mpr hnow]

/-- C9 at a concrete input: `fresh` is written and read one hour before it
expires, over the expired `record`. -/
theorem cache_round_trip_witness :
    (readCachedToken Example.envAfter
      (writeCachedToken Example.envAfter Example.fresh Example.expiredStored).2).1 =
      .ok Example.fresh :=
  cache_round_trip Example.envAfter Example.expiredStored Example.fresh
    (Example.expiry + 2 * Example.hour) (by decide) (by decide) (by decide) (by decide)

/-- C10 on the code: the `token` command drops the results of
`writeCachedToken` and `saveCredentialsToKeyring`. When `os.Create` fails, and
when `keyring.Set` fails, the command still returns `nil`, so the process ends
with exit code 0, while the cache file, respectively the keyring, is not
written. -/
theorem tokenAction_drops_write_errors :
    (writeCachedToken Example.envCreateFails Example.fresh Example.missingStored).1 =
      some .create ∧
    (tokenAction Example.envCreateFails Example.missingStored).1 = none ∧
    exitCode (tokenAction Example.envCreateFails Example.missingStored).1 = 0 ∧
    (tokenAction Example.envCreateFails Example.missingStored).2.cacheFile = none ∧
    (saveCredentialsToKeyring Example.envSetFails "admin" "secret" "https://mdm.example.com"
      Example.blank).1 = some (.keyringSet .username) ∧
    (tokenAction Example.envSetFails Example.blank).1 = none ∧
    exitCode (tokenAction Example.envSetFails Example.blank).1 = 0 ∧
    (tokenAction Example.envSetFails Example.blank).2.keyring = Keyring.empty := by
  decide

end MdmXv

